import Mathlib

/-!
Verification development for the wadugs-worker-cleansing background worker.

The Go source is shallowly embedded: pure functions become Lean functions,
effectful calls (AWS S3 backend, relational repositories, rate limiter,
backoff sleeps) become explicit state passing over oracle environments, and
fallible calls return `Except`/`Option`.  Machine integers (`int`, `int64`)
are modelled as `Int`; counts as `Nat`.  All definitions are executable.
-/

namespace WadugsCleansing

/-- `dto.S3Object` (src/src/dto/message.go).  The copy of the DTO under
`src` carries `Bucket` and `Key`; the multi-region engine
(`S3ServiceImpl.DeleteObjects`) additionally reads `obj.Region` and the
usage accounting in the cleansing service reads `obj.Size`, fields of the
DTO revision those files compile against (spec §3 `StorageObjectRef`:
`{region, bucket, key, size}`).  We model all four fields; the Go zero
values are `""` and `0`. -/
structure S3Object where
  region : String
  bucket : String
  key : String
  size : Int
deriving DecidableEq, Repr

namespace S3

/-- `maxDeleteBatchSize` (config.go const block): S3 batch delete limit. -/
def maxDeleteBatchSize : Nat := 1000

/-- `maxRetries` (config.go const block): retry configuration. -/
def maxRetries : Nat := 3

/-- `baseDelay = 100 * time.Millisecond`, in milliseconds. -/
def baseDelayMs : Nat := 100

/-- `maxDelay = 5 * time.Second`, in milliseconds. -/
def maxDelayMs : Nat := 5000

/-- The batch slicing loop `for i := 0; i < len(objects); i += maxDeleteBatchSize`
of `deleteBucketObjectsWithClient` / `deleteBucketObjectsOptimized`: the
list of slices `objects[i:end]` in order.  `fuel` makes the recursion
structural; `batchesOf` supplies `l.length`, which bounds the number of
slices since every slice of a nonempty list is nonempty. -/
def batchesOfAux (fuel : Nat) (l : List S3Object) : List (List S3Object) :=
  match fuel with
  | 0 => []
  | fuel + 1 =>
    if l.isEmpty then []
    else l.take maxDeleteBatchSize :: batchesOfAux fuel (l.drop maxDeleteBatchSize)

/-- The sequence of batches the engine slices a partition into. -/
def batchesOf (l : List S3Object) : List (List S3Object) :=
  batchesOfAux l.length l

/-- The sequential batch loop body of `deleteBucketObjectsWithClient`
(config.go:339-369): call the backend batch delete on each batch in order,
accumulating the confirmed-deleted count; on the first batch error return
the count accumulated so far together with the error.  `call` is the
stateful backend (`deleteBatchWithClient`); its `Nat` result is
`len(result.Deleted)`, per-key errors inside a successful call are logged
only (config.go:443-452) and so surface purely through that count. -/
def runBatches {σ : Type} (call : σ → List S3Object → σ × Except String Nat) :
    σ → Nat → List (List S3Object) → σ × Nat × Option String
  | s, acc, [] => (s, acc, none)
  | s, acc, b :: bs =>
    let r := call s b
    match r.2 with
    | Except.ok d => runBatches call r.1 (acc + d) bs
    | Except.error e => (r.1, acc, some e)

/-- `S3ServiceImpl.deleteBucketObjectsWithClient` (config.go:339-369):
process one (region,bucket) partition's objects in batches of at most
`maxDeleteBatchSize`, returning `(totalDeleted, err)`. -/
def deleteBucketObjectsWithClient {σ : Type}
    (call : σ → List S3Object → σ × Except String Nat)
    (s : σ) (objects : List S3Object) : σ × Nat × Option String :=
  runBatches call s 0 (batchesOf objects)

/-- The grouping loop of `DeleteObjects` (config.go:247-259): objects are
grouped into the nested map `regionBucketObjects[region][bucket]`.  A Go
map offers no iteration order, so we take the distinct (region,bucket)
keys in first-occurrence order as the canonical enumeration. -/
def regionBucketKeys (objects : List S3Object) : List (String × String) :=
  objects.foldl
    (fun acc o => if (o.region, o.bucket) ∈ acc then acc else acc ++ [(o.region, o.bucket)])
    []

/-- The contents of one (region,bucket) map entry: the objects appended to
it, in input order. -/
def partitionFor (objects : List S3Object) (k : String × String) : List S3Object :=
  objects.filter (fun o => (o.region, o.bucket) == k)

/-- The per-partition fan-out of `DeleteObjects` (config.go:267-299),
sequentialised: in the source each partition runs in a goroutine under an
`errgroup` with a semaphore of width `maxConcurrentDeletes`; within a
partition the batches are strictly sequential.  A partition error is
returned from the goroutine WITHOUT adding that partition's partial
`deleted` count to `totalDeleted` (config.go:287-292): only partitions
that completed without error contribute.  `g.Wait()` surfaces one error;
we keep the first in key order. -/
def runPartitions {σ : Type}
    (call : σ → (String × String) → List S3Object → σ × Except String Nat)
    (objects : List S3Object) :
    σ → Nat → Option String → List (String × String) → σ × Nat × Option String
  | s, acc, err, [] => (s, acc, err)
  | s, acc, err, k :: ks =>
    let r := deleteBucketObjectsWithClient (fun st b => call st k b) s (partitionFor objects k)
    match r.2.2 with
    | none => runPartitions call objects r.1 (acc + r.2.1) err ks
    | some e =>
      runPartitions call objects r.1 acc
        (match err with
        | some _ => err
        | none =>
          some ("failed to delete objects in bucket " ++ k.2 ++ " (region " ++ k.1 ++ "): " ++ e))
        ks

/-- `S3ServiceImpl.DeleteObjects` (config.go:239-303): empty input returns
`(0, nil)` with no backend call; otherwise the objects are grouped by
(region,bucket) and each partition is deleted in batches. -/
def DeleteObjects {σ : Type}
    (call : σ → (String × String) → List S3Object → σ × Except String Nat)
    (s : σ) (objects : List S3Object) : σ × Nat × Option String :=
  if objects.isEmpty then (s, 0, none)
  else runPartitions call objects s 0 none (regionBucketKeys objects)

/-- Unfolding `batchesOfAux` past its fuel bound: with fuel at least the
list length, one step of the slicing loop peels off `take 1000`. -/
theorem batchesOfAux_cons (fuel : Nat) (l : List S3Object) (h : l ≠ []) :
    batchesOfAux (fuel + 1) l
      = l.take maxDeleteBatchSize :: batchesOfAux fuel (l.drop maxDeleteBatchSize) := by
  simp [batchesOfAux, h]

theorem batchesOfAux_nil (fuel : Nat) : batchesOfAux fuel [] = [] := by
  cases fuel <;> simp [batchesOfAux]

/-- The slicing loop issues `ceil(len/1000)` batches. -/
theorem batchesOfAux_length (fuel : Nat) :
    ∀ l : List S3Object, l.length ≤ fuel →
      (batchesOfAux fuel l).length = (l.length + 999) / 1000 := by
  induction fuel with
  | zero =>
    intro l h
    have : l = [] := List.eq_nil_of_length_eq_zero (Nat.le_zero.mp h)
    subst this; simp [batchesOfAux]
  | succ fuel ih =>
    intro l h
    by_cases hl : l = []
    · subst hl; simp [batchesOfAux]
    · rw [batchesOfAux_cons fuel l hl]
      have hlen : (l.drop maxDeleteBatchSize).length ≤ fuel := by
        have h1 : 1 ≤ l.length := by
          cases l with
          | nil => exact absurd rfl hl
          | cons a t => simp
        simp [maxDeleteBatchSize]
        omega
      rw [List.length_cons, ih (l.drop maxDeleteBatchSize) hlen]
      have h1 : 1 ≤ l.length := by
        cases l with
        | nil => exact absurd rfl hl
        | cons a t => simp
      simp [maxDeleteBatchSize]
      omega

/-- Every batch the slicing loop issues holds at most 1000 objects. -/
theorem batchesOfAux_le (fuel : Nat) :
    ∀ l : List S3Object, ∀ b ∈ batchesOfAux fuel l, b.length ≤ maxDeleteBatchSize := by
  induction fuel with
  | zero => intro l b hb; simp [batchesOfAux] at hb
  | succ fuel ih =>
    intro l b hb
    by_cases hl : l = []
    · subst hl; simp [batchesOfAux] at hb
    · rw [batchesOfAux_cons fuel l hl] at hb
      rcases List.mem_cons.mp hb with hb | hb
      · subst hb; simp
      · exact ih _ b hb

/-- Every batch the slicing loop issues is nonempty. -/
theorem batchesOfAux_ne_nil (fuel : Nat) :
    ∀ l : List S3Object, ∀ b ∈ batchesOfAux fuel l, b ≠ [] := by
  induction fuel with
  | zero => intro l b hb; simp [batchesOfAux] at hb
  | succ fuel ih =>
    intro l b hb
    by_cases hl : l = []
    · subst hl; simp [batchesOfAux] at hb
    · rw [batchesOfAux_cons fuel l hl] at hb
      rcases List.mem_cons.mp hb with hb | hb
      · subst hb
        intro hc
        rw [List.take_eq_nil_iff] at hc
        rcases hc with h | h
        · simp [maxDeleteBatchSize] at h
        · exact hl h
      · exact ih _ b hb

/-- The batches of a partition jointly carry exactly its objects. -/
theorem batchesOfAux_sum (fuel : Nat) :
    ∀ l : List S3Object, l.length ≤ fuel →
      ((batchesOfAux fuel l).map List.length).sum = l.length := by
  induction fuel with
  | zero =>
    intro l h
    have : l = [] := List.eq_nil_of_length_eq_zero (Nat.le_zero.mp h)
    subst this; simp [batchesOfAux]
  | succ fuel ih =>
    intro l h
    by_cases hl : l = []
    · subst hl; simp [batchesOfAux]
    · rw [batchesOfAux_cons fuel l hl]
      have h1 : 1 ≤ l.length := by
        cases l with
        | nil => exact absurd rfl hl
        | cons a t => simp
      have hlen : (l.drop maxDeleteBatchSize).length ≤ fuel := by
        simp [maxDeleteBatchSize]; omega
      simp only [List.map_cons, List.sum_cons, ih (l.drop maxDeleteBatchSize) hlen]
      simp [maxDeleteBatchSize]
      omega

theorem batchesOf_length (l : List S3Object) :
    (batchesOf l).length = (l.length + 999) / 1000 :=
  batchesOfAux_length l.length l le_rfl

theorem batchesOf_le (l : List S3Object) : ∀ b ∈ batchesOf l, b.length ≤ maxDeleteBatchSize :=
  batchesOfAux_le l.length l

theorem batchesOf_ne_nil (l : List S3Object) : ∀ b ∈ batchesOf l, b ≠ [] :=
  batchesOfAux_ne_nil l.length l

theorem batchesOf_sum (l : List S3Object) :
    ((batchesOf l).map List.length).sum = l.length :=
  batchesOfAux_sum l.length l le_rfl

/-- Sum of the object counts of the first `k` batches. -/
def sumTake (k : Nat) (bs : List (List S3Object)) : Nat :=
  ((bs.take k).map List.length).sum

theorem sumTake_pos (k : Nat) (bs : List (List S3Object)) (hk : 1 ≤ k)
    (hne : bs ≠ []) (hall : ∀ b ∈ bs, b ≠ []) : 0 < sumTake k bs := by
  rcases List.exists_cons_of_ne_nil hne with ⟨b, rest, rfl⟩
  rcases Nat.exists_eq_add_of_le hk with ⟨k', rfl⟩
  have hb : b ≠ [] := hall b (by simp)
  have : 0 < b.length := List.length_pos.mpr hb
  simp [sumTake, Nat.add_comm 1 k', List.take_succ_cons]
  omega

theorem sumTake_lt (k : Nat) (bs : List (List S3Object)) (hk : k < bs.length)
    (hall : ∀ b ∈ bs, b ≠ []) : sumTake k bs < (bs.map List.length).sum := by
  conv_rhs => rw [← List.take_append_drop k bs]
  rw [List.map_append, List.sum_append]
  have hdrop : bs.drop k ≠ [] := by
    simp [List.drop_eq_nil_iff]; omega
  rcases List.exists_cons_of_ne_nil hdrop with ⟨b, rest, hb⟩
  have hbmem : b ∈ bs := by
    have : b ∈ bs.drop k := by rw [hb]; simp
    exact List.mem_of_mem_drop this
  have : 0 < b.length := List.length_pos.mpr (hall b hbmem)
  rw [hb]
  simp [sumTake]
  omega

/-- A backend behaviour for the partial-failure scenario: the first `k`
batch-delete calls succeed and confirm their whole batch, the next call
fails with a transport error.  The state counts backend calls. -/
def failCall (k : Nat) : Nat → List S3Object → Nat × Except String Nat :=
  fun s b => (s + 1, if s < k then Except.ok b.length else Except.error "transport error")

theorem runBatches_failCall (k : Nat) :
    ∀ (bs : List (List S3Object)) (j acc : Nat), j ≤ k → k - j < bs.length →
      runBatches (failCall k) j acc bs
        = (k + 1, acc + sumTake (k - j) bs, some "transport error") := by
  intro bs
  induction bs with
  | nil => intro j acc _ h; simp at h
  | cons b rest ih =>
    intro j acc hj h
    by_cases hjk : j < k
    · have : runBatches (failCall k) j acc (b :: rest)
          = runBatches (failCall k) (j + 1) (acc + b.length) rest := by
        simp [runBatches, failCall, hjk]
      rw [this, ih (j + 1) (acc + b.length) hjk (by simp at h; omega)]
      have hkj : k - j = (k - (j + 1)) + 1 := by omega
      rw [hkj]
      simp [sumTake, List.take_succ_cons]
      omega
    · have hjk' : j = k := by omega
      subst hjk'
      have : ¬ (j < j) := lt_irrefl j
      simp [runBatches, failCall, this, sumTake]

/-- `deleteBucketObjectsWithClient` under the fail-after-`k`-batches
backend: it has made `k+1` backend calls, returns the partial count
accumulated over the first `k` batches, and a non-nil error. -/
theorem deleteBucketObjectsWithClient_failCall (k : Nat) (objects : List S3Object)
    (hk : k < (batchesOf objects).length) :
    deleteBucketObjectsWithClient (failCall k) 0 objects
      = (k + 1, sumTake k (batchesOf objects), some "transport error") := by
  have := runBatches_failCall k (batchesOf objects) 0 0 (Nat.zero_le k) (by simpa using hk)
  simpa [deleteBucketObjectsWithClient] using this

/-- Membership invariant of the grouping fold. -/
theorem mem_regionBucketKeys_aux (key : String × String) :
    ∀ (l : List S3Object) (acc : List (String × String)),
      key ∈ l.foldl
        (fun acc o => if (o.region, o.bucket) ∈ acc then acc else acc ++ [(o.region, o.bucket)])
        acc
      ↔ key ∈ acc ∨ ∃ o ∈ l, (o.region, o.bucket) = key := by
  intro l
  induction l with
  | nil => intro acc; simp
  | cons o rest ih =>
    intro acc
    simp only [List.foldl_cons]
    by_cases h : (o.region, o.bucket) ∈ acc
    · rw [if_pos h, ih]
      constructor
      · rintro (ha | ⟨o', ho', rfl⟩)
        · exact Or.inl ha
        · exact Or.inr ⟨o', by simp [ho'], rfl⟩
      · rintro (ha | ⟨o', ho', rfl⟩)
        · exact Or.inl ha
        · rcases List.mem_cons.mp ho' with rfl | ho'
          · exact Or.inl h
          · exact Or.inr ⟨o', ho', rfl⟩
    · rw [if_neg h, ih]
      constructor
      · rintro (ha | ⟨o', ho', rfl⟩)
        · rcases List.mem_append.mp ha with ha | ha
          · exact Or.inl ha
          · simp at ha
            exact Or.inr ⟨o, by simp, ha.symm⟩
        · exact Or.inr ⟨o', by simp [ho'], rfl⟩
      · rintro (ha | ⟨o', ho', rfl⟩)
        · exact Or.inl (List.mem_append.mpr (Or.inl ha))
        · rcases List.mem_cons.mp ho' with rfl | ho'
          · exact Or.inl (by simp)
          · exact Or.inr ⟨o', ho', rfl⟩

theorem mem_regionBucketKeys (key : String × String) (objects : List S3Object) :
    key ∈ regionBucketKeys objects ↔ ∃ o ∈ objects, (o.region, o.bucket) = key := by
  rw [regionBucketKeys, mem_regionBucketKeys_aux]
  simp

/-- Nodup invariant of the grouping fold. -/
theorem nodup_regionBucketKeys_aux :
    ∀ (l : List S3Object) (acc : List (String × String)), acc.Nodup →
      (l.foldl
        (fun acc o => if (o.region, o.bucket) ∈ acc then acc else acc ++ [(o.region, o.bucket)])
        acc).Nodup := by
  intro l
  induction l with
  | nil => intro acc h; simpa using h
  | cons o rest ih =>
    intro acc h
    simp only [List.foldl_cons]
    by_cases hmem : (o.region, o.bucket) ∈ acc
    · rw [if_pos hmem]; exact ih acc h
    · rw [if_neg hmem]
      refine ih _ ?_
      simp [List.nodup_append, h, hmem]

theorem nodup_regionBucketKeys (objects : List S3Object) :
    (regionBucketKeys objects).Nodup :=
  nodup_regionBucketKeys_aux objects [] List.nodup_nil

/-- When every object carries the same (region,bucket), the grouping
produces exactly one partition key. -/
theorem regionBucketKeys_const (objects : List S3Object) (key : String × String)
    (hne : objects ≠ []) (hall : ∀ o ∈ objects, (o.region, o.bucket) = key) :
    regionBucketKeys objects = [key] := by
  have aux : ∀ l : List S3Object, (∀ o ∈ l, (o.region, o.bucket) = key) →
      l.foldl
        (fun acc o => if (o.region, o.bucket) ∈ acc then acc else acc ++ [(o.region, o.bucket)])
        [key] = [key] := by
    intro l
    induction l with
    | nil => intro _; simp
    | cons o rest ih =>
      intro h
      have ho := h o (by simp)
      simp only [List.foldl_cons, ho]
      rw [if_pos (by simp)]
      exact ih (fun o' ho' => h o' (by simp [ho']))
  rcases List.exists_cons_of_ne_nil hne with ⟨o, rest, rfl⟩
  have ho := hall o (by simp)
  rw [regionBucketKeys]
  simp only [List.foldl_cons, ho]
  rw [if_neg (by simp)]
  simpa using aux rest (fun o' ho' => hall o' (by simp [ho']))

/-- When every object carries key `k`, the partition for `k` is the whole list. -/
theorem partitionFor_const (objects : List S3Object) (key : String × String)
    (hall : ∀ o ∈ objects, (o.region, o.bucket) = key) :
    partitionFor objects key = objects := by
  rw [partitionFor, List.filter_eq_self]
  intro o ho
  simp [hall o ho]

/-- If `key` is not among the grouping keys, its partition is empty. -/
theorem partitionFor_not_mem (objects : List S3Object) (key : String × String)
    (h : key ∉ regionBucketKeys objects) : partitionFor objects key = [] := by
  rw [partitionFor, List.filter_eq_nil_iff]
  intro o ho
  simp only [beq_iff_eq]
  intro hc
  exact h ((mem_regionBucketKeys key objects).mpr ⟨o, ho, hc⟩)

/-- A counting backend that always succeeds, confirming each whole batch,
and records one trace entry `(key, batchSize)` per backend batch call. -/
def countingCall :
    List ((String × String) × Nat) → (String × String) → List S3Object →
      List ((String × String) × Nat) × Except String Nat :=
  fun tr k b => (tr ++ [(k, b.length)], Except.ok b.length)

theorem runBatches_counting (key : String × String) :
    ∀ (bs : List (List S3Object)) (tr : List ((String × String) × Nat)) (acc : Nat),
      runBatches (fun st b => countingCall st key b) tr acc bs
        = (tr ++ bs.map (fun b => (key, b.length)), acc + (bs.map List.length).sum, none) := by
  intro bs
  induction bs with
  | nil => intro tr acc; simp [runBatches]
  | cons b rest ih =>
    intro tr acc
    have step : runBatches (fun st b => countingCall st key b) tr acc (b :: rest)
        = runBatches (fun st b => countingCall st key b)
            (tr ++ [(key, b.length)]) (acc + b.length) rest := rfl
    rw [step, ih]
    simp [List.append_assoc]
    omega

/-- The trace entries one partition's batch loop emits under the counting
backend. -/
def blockFor (objects : List S3Object) (k : String × String) :
    List ((String × String) × Nat) :=
  (batchesOf (partitionFor objects k)).map (fun b => (k, b.length))

theorem runPartitions_counting (objects : List S3Object) :
    ∀ (ks : List (String × String)) (tr : List ((String × String) × Nat))
      (acc : Nat) (err : Option String),
      runPartitions countingCall objects tr acc err ks
        = (tr ++ ks.flatMap (blockFor objects),
           acc + (ks.map (fun k => (partitionFor objects k).length)).sum, err) := by
  intro ks
  induction ks with
  | nil => intro tr acc err; simp [runPartitions]
  | cons k rest ih =>
    intro tr acc err
    simp only [runPartitions, deleteBucketObjectsWithClient]
    rw [runBatches_counting k (batchesOf (partitionFor objects k)) tr 0]
    simp only [Nat.zero_add, batchesOf_sum]
    rw [ih]
    simp [blockFor]
    omega

theorem filter_flatMap_block (objects : List S3Object) (key : String × String) :
    ∀ ks : List (String × String), ks.Nodup →
      ((ks.flatMap (blockFor objects)).filter (fun e => e.1 == key)).length
        = if key ∈ ks then (blockFor objects key).length else 0 := by
  intro ks
  induction ks with
  | nil => intro _; simp
  | cons k rest ih =>
    intro hnd
    rw [List.flatMap_cons, List.filter_append, List.length_append]
    have hnd' : rest.Nodup := (List.nodup_cons.mp hnd).2
    by_cases hk : k = key
    · subst hk
      have hnotmem : k ∉ rest := (List.nodup_cons.mp hnd).1
      have h1 : (blockFor objects k).filter (fun e => e.1 == k) = blockFor objects k := by
        rw [List.filter_eq_self]
        intro e he
        rcases List.mem_map.mp he with ⟨b, _, rfl⟩
        simp
      rw [h1, ih hnd']
      simp [hnotmem]
    · have h1 : (blockFor objects k).filter (fun e => e.1 == key) = [] := by
        rw [List.filter_eq_nil_iff]
        intro e he
        rcases List.mem_map.mp he with ⟨b, _, rfl⟩
        simp [hk]
      have hkk : ¬ key = k := fun h => hk h.symm
      rw [h1, ih hnd']
      simp [List.mem_cons, hkk]

/-- C3: for every key list handed to `DeleteObjects`, under a backend that
accepts every batch, each (region,bucket) partition of size `M` is issued
in exactly `ceil(M/1000)` backend batch-delete calls, and every batch call
anywhere in the run carries at most 1000 objects. -/
theorem deleteObjects_batch_size_invariant :
    ∀ (objects : List S3Object) (key : String × String),
      (((DeleteObjects countingCall [] objects).1).filter (fun e => e.1 == key)).length
        = ((partitionFor objects key).length + 999) / 1000
      ∧ ∀ e ∈ (DeleteObjects countingCall [] objects).1, e.2 ≤ maxDeleteBatchSize := by
  intro objects key
  by_cases hne : objects = []
  · subst hne
    constructor
    · simp [DeleteObjects, partitionFor]
    · intro e he
      simp [DeleteObjects] at he
  · have hEmpty : objects.isEmpty = false := by
      cases objects with
      | nil => exact absurd rfl hne
      | cons a t => simp
    have hrun : DeleteObjects countingCall [] objects
        = (regionBucketKeys objects |>.flatMap (blockFor objects),
           ((regionBucketKeys objects).map (fun k => (partitionFor objects k).length)).sum,
           none) := by
      rw [DeleteObjects, hEmpty]
      simp only [Bool.false_eq_true, if_false]
      rw [runPartitions_counting objects (regionBucketKeys objects) [] 0 none]
      simp
    constructor
    · rw [hrun]
      simp only
      rw [filter_flatMap_block objects key (regionBucketKeys objects)
        (nodup_regionBucketKeys objects)]
      by_cases hmem : key ∈ regionBucketKeys objects
      · rw [if_pos hmem, blockFor, List.length_map, batchesOf_length]
      · rw [if_neg hmem, partitionFor_not_mem objects key hmem]
        simp
    · rw [hrun]
      intro e he
      simp only at he
      rcases List.mem_flatMap.mp he with ⟨k, _, hk⟩
      rcases List.mem_map.mp hk with ⟨b, hb, rfl⟩
      exact batchesOf_le _ b hb

/-- C1 (amended): when every object lies in one (region,bucket) partition
and the backend permanently fails the batch after `k ≥ 1` successful
batches, `deleteBucketObjectsWithClient` returns the partial count (sum of
the first `k` batches, strictly between 0 and the requested count) with a
non-nil error, but `DeleteObjects` discards the failing partition's
partial count (config.go:287-292) and returns deleted count 0 with a
non-nil error: partial failure is never promoted to success, yet the
progress count of a failed partition is dropped by `DeleteObjects`. -/
theorem deleteObjects_partition_failure
    (objects : List S3Object) (key : String × String) (k : Nat)
    (hall : ∀ o ∈ objects, (o.region, o.bucket) = key)
    (hne : objects ≠ [])
    (hk1 : 1 ≤ k) (hk : k < (batchesOf objects).length) :
    deleteBucketObjectsWithClient (failCall k) 0 objects
        = (k + 1, sumTake k (batchesOf objects), some "transport error")
    ∧ 0 < sumTake k (batchesOf objects)
    ∧ sumTake k (batchesOf objects) < objects.length
    ∧ DeleteObjects (fun s _ b => failCall k s b) 0 objects
        = (k + 1, 0, some ("failed to delete objects in bucket " ++ key.2
            ++ " (region " ++ key.1 ++ "): " ++ "transport error")) := by
  have hA := deleteBucketObjectsWithClient_failCall k objects hk
  have hEmpty : objects.isEmpty = false := by
    cases objects with
    | nil => exact absurd rfl hne
    | cons a t => simp
  refine ⟨hA, ?_, ?_, ?_⟩
  · refine sumTake_pos k _ hk1 ?_ (batchesOf_ne_nil objects)
    intro hc
    rw [hc] at hk
    simp at hk
  · have := sumTake_lt k _ hk (batchesOf_ne_nil objects)
    rwa [batchesOf_sum] at this
  · rw [DeleteObjects, hEmpty]
    simp only [Bool.false_eq_true, if_false]
    rw [regionBucketKeys_const objects key hne hall]
    simp only [runPartitions, partitionFor_const objects key hall]
    have hA' : deleteBucketObjectsWithClient (fun st b => failCall k st b) 0 objects
        = (k + 1, sumTake k (batchesOf objects), some "transport error") := hA
    rw [hA']

/-- A concrete single-partition input of 1001 objects: two batches, the
first of 1000 objects, the second of 1. -/
def testObj : S3Object :=
  { region := "ap-southeast-1", bucket := "bkt", key := "k", size := 1 }

theorem isEmpty_false_of_ne_nil (l : List S3Object) (h : l ≠ []) : l.isEmpty = false := by
  cases l with
  | nil => exact absurd rfl h
  | cons a t => rfl

/-- C1 counterexample: 1001 objects in one (region,bucket) partition, the
backend confirms the first batch of 1000 and permanently fails the second
(`k = 1` prior batches succeeded).  The claim demands a returned deleted
count of 1000 (the sum of the first `k` batches) and "never 0"; the code
returns 0: the goroutine drops the failing partition's partial count. -/
theorem deleteObjects_partial_count_counterexample :
    DeleteObjects (fun s _ b => failCall 1 s b) 0 (List.replicate 1001 testObj)
       = (2, 0, some ("failed to delete objects in bucket " ++ "bkt"
           ++ " (region " ++ "ap-southeast-1" ++ "): " ++ "transport error"))
    ∧ (0 : Nat) ≠ 1000 := by
  have hall : ∀ o ∈ List.replicate 1001 testObj,
      (o.region, o.bucket) = ("ap-southeast-1", "bkt") :=
    fun o ho => by rw [List.eq_of_mem_replicate ho]; rfl
  have hne : List.replicate 1001 testObj ≠ [] :=
    List.length_pos.mp (by rw [List.length_replicate]; norm_num)
  have hk : 1 < (batchesOf (List.replicate 1001 testObj)).length := by
    rw [batchesOf_length, List.length_replicate]; norm_num
  have hA := deleteBucketObjectsWithClient_failCall 1 (List.replicate 1001 testObj) hk
  refine ⟨?_, by simp⟩
  rw [DeleteObjects, isEmpty_false_of_ne_nil _ hne]
  simp only [Bool.false_eq_true, if_false]
  rw [regionBucketKeys_const _ ("ap-southeast-1", "bkt") hne hall]
  simp only [runPartitions, partitionFor_const _ ("ap-southeast-1", "bkt") hall]
  have hA' : deleteBucketObjectsWithClient (fun st b => failCall 1 st b) 0
      (List.replicate 1001 testObj)
      = (2, sumTake 1 (batchesOf (List.replicate 1001 testObj)), some "transport error") := hA
  rw [hA']

/-- Witness for the amended C1 theorem at the same concrete input. -/
theorem deleteObjects_partition_failure_witness :
    deleteBucketObjectsWithClient (failCall 1) 0 (List.replicate 1001 testObj)
        = (2, sumTake 1 (batchesOf (List.replicate 1001 testObj)), some "transport error")
    ∧ 0 < sumTake 1 (batchesOf (List.replicate 1001 testObj))
    ∧ sumTake 1 (batchesOf (List.replicate 1001 testObj))
        < (List.replicate 1001 testObj).length
    ∧ DeleteObjects (fun s _ b => failCall 1 s b) 0 (List.replicate 1001 testObj)
        = (2, 0, some ("failed to delete objects in bucket " ++ "bkt"
            ++ " (region " ++ "ap-southeast-1" ++ "): " ++ "transport error")) :=
  deleteObjects_partition_failure (List.replicate 1001 testObj)
    ("ap-southeast-1", "bkt") 1
    (fun o ho => by rw [List.eq_of_mem_replicate ho]; rfl)
    (List.length_pos.mp (by rw [List.length_replicate]; norm_num))
    (le_refl 1)
    (by rw [batchesOf_length, List.length_replicate]; norm_num)

/-- Events of the rate-limited bucket-deletion engine
(`DeleteBucket` / `deleteAllObjectsInBucket` / `deleteBatchWithRetry` /
`deleteBucketWithRetry`, config.go:498-714): a rate-limiter acquisition, a
backend batch-delete call carrying its batch size, a backoff sleep
carrying its duration, a paginated list call, and the bucket-removal
call. -/
inductive SEv where
  | rateWait : SEv
  | batchCall (n : Nat) : SEv
  | sleep (ms : Nat) : SEv
  | listPage : SEv
  | removeBucket : SEv
deriving DecidableEq, Repr

/-- Engine state: a counter of backend/limiter interactions (indexing the
oracle) and the trace of events so far. -/
structure SState where
  calls : Nat
  trace : List SEv
deriving DecidableEq, Repr

/-- Oracle for the environment's responses: whether the `i`-th rate-limiter
wait returns before cancellation, the `i`-th batch call's outcome
(confirmed-deleted count or transport error), the `i`-th bucket-removal
outcome, and whether the `i`-th backoff sleep completes before the
context's cancellation fires. -/
structure SOracle where
  rateOk : Nat → Bool
  batchRes : Nat → Except String Nat
  removeRes : Nat → Option String
  sleepOk : Nat → Bool

/-- `s3s.rateLimiter.Wait(ctx)`: false means the context was cancelled. -/
def opRateWait (o : SOracle) (s : SState) : SState × Bool :=
  (⟨s.calls + 1, s.trace ++ [SEv.rateWait]⟩, o.rateOk s.calls)

/-- A backend batch delete (`s3s.deleteBatch`): per-key errors inside a
successful call are logged only, so the outcome is the confirmed count or
a transport-level error. -/
def opBatch (o : SOracle) (s : SState) (batch : List S3Object) : SState × Except String Nat :=
  (⟨s.calls + 1, s.trace ++ [SEv.batchCall batch.length]⟩, o.batchRes s.calls)

/-- The `select { case <-ctx.Done() ... case <-time.After(delay) }` backoff
sleep: false means cancellation fired first. -/
def opSleep (o : SOracle) (s : SState) (ms : Nat) : SState × Bool :=
  (⟨s.calls + 1, s.trace ++ [SEv.sleep ms]⟩, o.sleepOk s.calls)

/-- A `paginator.NextPage` call (its outcome is carried by the `pages`
list). -/
def opListPage (s : SState) : SState :=
  ⟨s.calls + 1, s.trace ++ [SEv.listPage]⟩

/-- The `client.DeleteBucket` call. -/
def opRemoveBucket (o : SOracle) (s : SState) : SState × Option String :=
  (⟨s.calls + 1, s.trace ++ [SEv.removeBucket]⟩, o.removeRes s.calls)

/-- The backoff delay the source computes before retry number `attempt+1`:
`delay := time.Duration(attempt+1) * baseDelay; if delay > maxDelay
{ delay = maxDelay }` (config.go:639-643).  Linear in the attempt index,
capped at `maxDelay`. -/
def retryDelayMs (attempt : Nat) : Nat :=
  min ((attempt + 1) * baseDelayMs) maxDelayMs

/-- The retry loop of `deleteBatchWithRetry` (config.go:617-664):
`for attempt := 0; attempt <= maxRetries; attempt++`.  `rem` counts the
iterations still permitted (loop entry has `rem = maxRetries + 1`), making
the recursion structural; `rem = 0` inside an iteration marks
`attempt == maxRetries`, after which the loop breaks and reports the last
error.  Each iteration rate-limits, calls the backend batch delete,
returns on success, and otherwise sleeps `retryDelayMs attempt` before the
next iteration; cancellation at the limiter or during the sleep aborts
immediately with an error. -/
def deleteBatchWithRetryAux (o : SOracle) (objs : List S3Object) :
    Nat → Nat → SState → SState × Except String Nat
  | _, 0, s => (s, Except.error "batch delete failed after 4 attempts: ")
  | attempt, rem + 1, s =>
    let w := opRateWait o s
    if w.2 = false then (w.1, Except.error "rate limiter context cancelled")
    else
      let rb := opBatch o w.1 objs
      match rb.2 with
      | Except.ok d => (rb.1, Except.ok d)
      | Except.error e =>
        if rem = 0 then (rb.1, Except.error ("batch delete failed after 4 attempts: " ++ e))
        else
          let sl := opSleep o rb.1 (retryDelayMs attempt)
          if sl.2 = false then (sl.1, Except.error "context canceled")
          else deleteBatchWithRetryAux o objs (attempt + 1) rem sl.1

/-- `S3ServiceImpl.deleteBatchWithRetry` (config.go:617-664). -/
def deleteBatchWithRetry (o : SOracle) (s : SState) (objs : List S3Object) :
    SState × Except String Nat :=
  deleteBatchWithRetryAux o objs 0 (maxRetries + 1) s

/-- The batch loop of `deleteBucketObjectsOptimized` (config.go:586-612),
each batch through `deleteBatchWithRetry`. -/
def runBatchesRetry (o : SOracle) : SState → Nat → List (List S3Object) → SState × Nat × Option String
  | s, acc, [] => (s, acc, none)
  | s, acc, b :: bs =>
    let r := deleteBatchWithRetry o s b
    match r.2 with
    | Except.ok d => runBatchesRetry o r.1 (acc + d) bs
    | Except.error e => (r.1, acc, some e)

/-- `S3ServiceImpl.deleteBucketObjectsOptimized` (config.go:579-615). -/
def deleteBucketObjectsOptimized (o : SOracle) (s : SState) (objects : List S3Object) :
    SState × Nat × Option String :=
  if objects.isEmpty then (s, 0, none)
  else runBatchesRetry o s 0 (batchesOf objects)

/-- `S3ServiceImpl.deleteAllObjectsInBucket` (config.go:521-576): the
paginated listing loop.  `pages` carries each `NextPage` outcome in order;
every page fetch is preceded by a rate-limiter wait, an empty page is
skipped (`continue`), and a nonempty page is deleted through
`deleteBucketObjectsOptimized`; any failure aborts with an error. -/
def deleteAllObjectsInBucket (o : SOracle) (bucketName : String) :
    SState → List (Except String (List S3Object)) → SState × Option String
  | s, [] => (s, none)
  | s, page :: pages =>
    let w := opRateWait o s
    if w.2 = false then (w.1, some "rate limiter context cancelled")
    else
      let s1 := opListPage w.1
      match page with
      | Except.error e => (s1, some ("failed to list objects page: " ++ e))
      | Except.ok contents =>
        if contents.isEmpty then deleteAllObjectsInBucket o bucketName s1 pages
        else
          let r := deleteBucketObjectsOptimized o s1 contents
          match r.2.2 with
          | some e => (r.1, some ("failed to delete batch of objects: " ++ e))
          | none => deleteAllObjectsInBucket o bucketName r.1 pages

/-- The retry loop of `deleteBucketWithRetry` (config.go:667-714), same
structure as the batch retry but around the bucket-removal call. -/
def deleteBucketWithRetryAux (o : SOracle) :
    Nat → Nat → SState → SState × Option String
  | _, 0, s => (s, some "bucket deletion failed after 4 attempts: ")
  | attempt, rem + 1, s =>
    let w := opRateWait o s
    if w.2 = false then (w.1, some "rate limiter context cancelled")
    else
      let rb := opRemoveBucket o w.1
      match rb.2 with
      | none => (rb.1, none)
      | some e =>
        if rem = 0 then (rb.1, some ("bucket deletion failed after 4 attempts: " ++ e))
        else
          let sl := opSleep o rb.1 (retryDelayMs attempt)
          if sl.2 = false then (sl.1, some "context canceled")
          else deleteBucketWithRetryAux o (attempt + 1) rem sl.1

/-- `S3ServiceImpl.deleteBucketWithRetry` (config.go:667-714). -/
def deleteBucketWithRetry (o : SOracle) (s : SState) : SState × Option String :=
  deleteBucketWithRetryAux o 0 (maxRetries + 1) s

/-- `S3ServiceImpl.DeleteBucket` (config.go:498-518): step 1 deletes every
object in the bucket; only if that succeeds does step 2 perform the
(retried) bucket-removal call.  A step-1 error is wrapped and returned
without attempting removal. -/
def DeleteBucket (o : SOracle) (s : SState) (bucketName : String)
    (pages : List (Except String (List S3Object))) : SState × Option String :=
  let r := deleteAllObjectsInBucket o bucketName s pages
  match r.2 with
  | some e => (r.1, some ("failed to delete objects in bucket " ++ bucketName ++ ": " ++ e))
  | none =>
    let r2 := deleteBucketWithRetry o r.1
    match r2.2 with
    | some e => (r2.1, some ("failed to delete bucket " ++ bucketName ++ ": " ++ e))
    | none => (r2.1, none)

def isBatchEv : SEv → Bool
  | SEv.batchCall _ => true
  | _ => false

/-- Events legal during the object-deletion phase (everything except the
bucket-removal call). -/
def isObjPhaseEv : SEv → Bool
  | SEv.removeBucket => false
  | _ => true

/-- Events legal during the bucket-removal phase (no batch deletes, no
page listings). -/
def isRemovalPhaseEv : SEv → Bool
  | SEv.batchCall _ => false
  | SEv.listPage => false
  | _ => true

/-- The durations of the sleep events of a trace, in order. -/
def sleepsOf : List SEv → List Nat
  | [] => []
  | SEv.sleep ms :: rest => ms :: sleepsOf rest
  | _ :: rest => sleepsOf rest

/-- Scans a trace checking that every batch call is immediately preceded
by a rate-limiter wait; `prevIsWait` records whether the previous event
was a wait. -/
def callsOkFrom (prevIsWait : Bool) : List SEv → Bool
  | [] => true
  | SEv.batchCall _ :: rest => prevIsWait && callsOkFrom false rest
  | SEv.rateWait :: rest => callsOkFrom true rest
  | _ :: rest => callsOkFrom false rest

/-- The backoff delays the retry loop would use from `attempt` on, for a
given number of remaining sleeps. -/
def delaysFrom (a : Nat) : Nat → List Nat
  | 0 => []
  | n + 1 => retryDelayMs a :: delaysFrom (a + 1) n

/-- Combined invariant of the batch retry loop: the trace grows by a
segment in which every batch call immediately follows a rate-limiter
wait, at most `rem` batch calls are made, the backoff sleeps are a prefix
of the linearly growing delay schedule from `attempt`, and no
bucket-removal event occurs. -/
theorem deleteBatchWithRetryAux_invariant (o : SOracle) (objs : List S3Object) :
    ∀ (rem attempt : Nat) (s : SState),
      ∃ t, (deleteBatchWithRetryAux o objs attempt rem s).1.trace = s.trace ++ t
        ∧ callsOkFrom false t = true
        ∧ (t.filter isBatchEv).length ≤ rem
        ∧ (∃ u, sleepsOf t ++ u = delaysFrom attempt (rem - 1))
        ∧ ∀ e ∈ t, isObjPhaseEv e = true := by
  intro rem
  induction rem with
  | zero =>
    intro attempt s
    exact ⟨[], by simp [deleteBatchWithRetryAux], rfl, by simp, ⟨[], rfl⟩, by simp⟩
  | succ rem ih =>
    intro attempt s
    by_cases hw : o.rateOk s.calls
    · rcases hbv : o.batchRes (s.calls + 1) with e | d
      · by_cases hr : rem = 0
        · subst hr
          have hstep : deleteBatchWithRetryAux o objs attempt 1 s
              = (⟨s.calls + 2, s.trace ++ [SEv.rateWait, SEv.batchCall objs.length]⟩,
                 Except.error ("batch delete failed after 4 attempts: " ++ e)) := by
            simp [deleteBatchWithRetryAux, opRateWait, opBatch, hw, hbv]
          rw [hstep]
          exact ⟨[SEv.rateWait, SEv.batchCall objs.length], rfl, rfl,
            by simp [isBatchEv], ⟨[], rfl⟩, by simp [isObjPhaseEv]⟩
        · by_cases hs : o.sleepOk (s.calls + 2)
          · obtain ⟨t, ht, hcalls, hcount, ⟨u, hu⟩, hobj⟩ := ih (attempt + 1)
              ⟨s.calls + 3, s.trace ++ [SEv.rateWait, SEv.batchCall objs.length,
                SEv.sleep (retryDelayMs attempt)]⟩
            have hstep : deleteBatchWithRetryAux o objs attempt (rem + 1) s
                = deleteBatchWithRetryAux o objs (attempt + 1) rem
                    ⟨s.calls + 3, s.trace ++ [SEv.rateWait, SEv.batchCall objs.length,
                      SEv.sleep (retryDelayMs attempt)]⟩ := by
              simp [deleteBatchWithRetryAux, opRateWait, opBatch, opSleep, hw, hbv, hr, hs]
            rw [hstep]
            refine ⟨[SEv.rateWait, SEv.batchCall objs.length,
              SEv.sleep (retryDelayMs attempt)] ++ t, ?_, ?_, ?_, ?_, ?_⟩
            · rw [ht]; simp
            · simpa [callsOkFrom] using hcalls
            · simp only [List.filter_append, List.length_append]
              have : ([SEv.rateWait, SEv.batchCall objs.length,
                  SEv.sleep (retryDelayMs attempt)].filter isBatchEv).length = 1 := by
                simp [isBatchEv]
              omega
            · refine ⟨u, ?_⟩
              have hsl : sleepsOf ([SEv.rateWait, SEv.batchCall objs.length,
                  SEv.sleep (retryDelayMs attempt)] ++ t)
                  = retryDelayMs attempt :: sleepsOf t := by
                simp [sleepsOf]
              rw [hsl]
              rcases Nat.exists_eq_succ_of_ne_zero hr with ⟨r, rfl⟩
              simp only [Nat.succ_sub_one] at hu ⊢
              simp [delaysFrom, hu]
            · intro ev hev
              rcases List.mem_append.mp hev with hev | hev
              · rcases List.mem_cons.mp hev with rfl | hev
                · rfl
                · rcases List.mem_cons.mp hev with rfl | hev
                  · rfl
                  · rcases List.mem_cons.mp hev with rfl | hev
                    · rfl
                    · simp at hev
              · exact hobj ev hev
          · have hstep : deleteBatchWithRetryAux o objs attempt (rem + 1) s
                = (⟨s.calls + 3, s.trace ++ [SEv.rateWait, SEv.batchCall objs.length,
                    SEv.sleep (retryDelayMs attempt)]⟩,
                   Except.error "context canceled") := by
              simp [deleteBatchWithRetryAux, opRateWait, opBatch, opSleep, hw, hbv, hr, hs]
            rw [hstep]
            rcases Nat.exists_eq_succ_of_ne_zero hr with ⟨r, rfl⟩
            refine ⟨[SEv.rateWait, SEv.batchCall objs.length,
              SEv.sleep (retryDelayMs attempt)], rfl, rfl, by simp [isBatchEv],
              ⟨delaysFrom (attempt + 1) r, ?_⟩, by simp [isObjPhaseEv]⟩
            simp [sleepsOf, delaysFrom]
      · have hstep : deleteBatchWithRetryAux o objs attempt (rem + 1) s
            = (⟨s.calls + 2, s.trace ++ [SEv.rateWait, SEv.batchCall objs.length]⟩,
               Except.ok d) := by
          simp [deleteBatchWithRetryAux, opRateWait, opBatch, hw, hbv]
        rw [hstep]
        exact ⟨[SEv.rateWait, SEv.batchCall objs.length], rfl, rfl,
          by simp [isBatchEv], ⟨delaysFrom attempt rem, by simp [sleepsOf]⟩,
          by simp [isObjPhaseEv]⟩
    · have hwf : o.rateOk s.calls = false := by
        revert hw; cases o.rateOk s.calls <;> simp
      have hstep : deleteBatchWithRetryAux o objs attempt (rem + 1) s
          = (⟨s.calls + 1, s.trace ++ [SEv.rateWait]⟩,
             Except.error "rate limiter context cancelled") := by
        simp [deleteBatchWithRetryAux, opRateWait, hwf]
      rw [hstep]
      exact ⟨[SEv.rateWait], rfl, rfl, by simp [isBatchEv],
        ⟨delaysFrom attempt rem, by simp [sleepsOf]⟩, by simp [isObjPhaseEv]⟩

/-- C4 (amended): in `deleteBatchWithRetry`, every backend batch call is
immediately preceded by a rate-limiter acquisition; at most
`maxRetries + 1 = 4` batch calls are made (3 retries after the initial
attempt); the backoff sleeps between attempts follow the linear schedule
100 ms, 200 ms, 300 ms (`(attempt+1)·baseDelay`, capped at `maxDelay`),
of which any run performs a prefix; and when the caller's cancellation
fires at the first rate-limiter wait the loop aborts at once with an
error, having made no batch call. -/
theorem deleteBatchWithRetry_policy (o : SOracle) (c₀ : Nat) (objs : List S3Object) :
    callsOkFrom false ((deleteBatchWithRetry o ⟨c₀, []⟩ objs).1.trace) = true
    ∧ (((deleteBatchWithRetry o ⟨c₀, []⟩ objs).1.trace.filter isBatchEv).length
        ≤ maxRetries + 1)
    ∧ (∃ u, sleepsOf ((deleteBatchWithRetry o ⟨c₀, []⟩ objs).1.trace) ++ u
        = [baseDelayMs, 2 * baseDelayMs, 3 * baseDelayMs])
    ∧ (o.rateOk c₀ = false →
        (deleteBatchWithRetry o ⟨c₀, []⟩ objs).1.trace = [SEv.rateWait]
        ∧ (deleteBatchWithRetry o ⟨c₀, []⟩ objs).2
            = Except.error "rate limiter context cancelled") := by
  obtain ⟨t, ht, hcalls, hcount, ⟨u, hu⟩, _⟩ :=
    deleteBatchWithRetryAux_invariant o objs (maxRetries + 1) 0 ⟨c₀, []⟩
  have htr : (deleteBatchWithRetry o ⟨c₀, []⟩ objs).1.trace = t := by
    rw [deleteBatchWithRetry, ht]; rfl
  refine ⟨by rw [htr]; exact hcalls, by rw [htr]; exact hcount, ⟨u, ?_⟩, ?_⟩
  · rw [htr, hu]
    rfl
  · intro h
    constructor
    · rw [deleteBatchWithRetry]
      show (deleteBatchWithRetryAux o objs 0 4 ⟨c₀, []⟩).1.trace = [SEv.rateWait]
      simp [deleteBatchWithRetryAux, opRateWait, h]
    · rw [deleteBatchWithRetry]
      show (deleteBatchWithRetryAux o objs 0 4 ⟨c₀, []⟩).2
          = Except.error "rate limiter context cancelled"
      simp [deleteBatchWithRetryAux, opRateWait, h]

/-- An environment whose cancellation signal has already fired. -/
def oCancel : SOracle :=
  { rateOk := fun _ => false, batchRes := fun _ => Except.error "transport error",
    removeRes := fun _ => some "denied", sleepOk := fun _ => false }

/-- Witness: with cancellation fired at the first rate-limiter wait, the
retry loop performed exactly that one wait and aborted with an error. -/
theorem deleteBatchWithRetry_policy_witness :
    (deleteBatchWithRetry oCancel ⟨0, []⟩ [testObj]).1.trace = [SEv.rateWait]
    ∧ (deleteBatchWithRetry oCancel ⟨0, []⟩ [testObj]).2
        = Except.error "rate limiter context cancelled" :=
  (deleteBatchWithRetry_policy oCancel 0 [testObj]).2.2.2 rfl

/-- An environment that permanently fails every batch call, with the rate
limiter and the sleeps never cancelled. -/
def oFailBatch : SOracle :=
  { rateOk := fun _ => true, batchRes := fun _ => Except.error "throttled",
    removeRes := fun _ => none, sleepOk := fun _ => true }

/-- C4 counterexample: with the backend failing every attempt, the three
backoff sleeps of the retry loop are 100 ms, 200 ms, 300 ms — a linear
schedule; an exponential schedule starting at 100 ms (capped at 5 s)
would sleep `min(100·2², 5000) = 400` ms before the final retry, not
300 ms. -/
theorem deleteBatchWithRetry_backoff_counterexample :
    sleepsOf ((deleteBatchWithRetry oFailBatch ⟨0, []⟩ [testObj]).1.trace) = [100, 200, 300]
    ∧ retryDelayMs 2 = 300
    ∧ min (baseDelayMs * 2 ^ 2) maxDelayMs = 400
    ∧ (300 : Nat) ≠ 400 := by
  exact ⟨rfl, rfl, rfl, by norm_num⟩

/-- The batch retry loop emits no bucket-removal event. -/
theorem deleteBatchWithRetry_objPhase (o : SOracle) (s : SState) (objs : List S3Object) :
    ∃ t, (deleteBatchWithRetry o s objs).1.trace = s.trace ++ t
      ∧ ∀ e ∈ t, isObjPhaseEv e = true := by
  obtain ⟨t, ht, _, _, _, hobj⟩ := deleteBatchWithRetryAux_invariant o objs (maxRetries + 1) 0 s
  exact ⟨t, ht, hobj⟩

theorem runBatchesRetry_objPhase (o : SOracle) :
    ∀ (bs : List (List S3Object)) (s : SState) (acc : Nat),
      ∃ t, (runBatchesRetry o s acc bs).1.trace = s.trace ++ t
        ∧ ∀ e ∈ t, isObjPhaseEv e = true := by
  intro bs
  induction bs with
  | nil => intro s acc; exact ⟨[], by simp [runBatchesRetry], by simp⟩
  | cons b rest ih =>
    intro s acc
    obtain ⟨t1, ht1, hobj1⟩ := deleteBatchWithRetry_objPhase o s b
    rcases hres : (deleteBatchWithRetry o s b).2 with e | d
    · have hstep : runBatchesRetry o s acc (b :: rest)
          = ((deleteBatchWithRetry o s b).1, acc, some e) := by
        simp [runBatchesRetry, hres]
      rw [hstep]
      exact ⟨t1, ht1, hobj1⟩
    · have hstep : runBatchesRetry o s acc (b :: rest)
          = runBatchesRetry o (deleteBatchWithRetry o s b).1 (acc + d) rest := by
        simp [runBatchesRetry, hres]
      rw [hstep]
      obtain ⟨t2, ht2, hobj2⟩ := ih (deleteBatchWithRetry o s b).1 (acc + d)
      refine ⟨t1 ++ t2, ?_, ?_⟩
      · rw [ht2, ht1, List.append_assoc]
      · intro e he
        rcases List.mem_append.mp he with h | h
        · exact hobj1 e h
        · exact hobj2 e h

theorem deleteBucketObjectsOptimized_objPhase (o : SOracle) (s : SState)
    (objects : List S3Object) :
    ∃ t, (deleteBucketObjectsOptimized o s objects).1.trace = s.trace ++ t
      ∧ ∀ e ∈ t, isObjPhaseEv e = true := by
  rw [deleteBucketObjectsOptimized]
  by_cases h : objects.isEmpty
  · rw [if_pos h]
    exact ⟨[], by simp, by simp⟩
  · rw [if_neg h]
    exact runBatchesRetry_objPhase o (batchesOf objects) s 0

theorem deleteAllObjectsInBucket_objPhase (o : SOracle) (bucketName : String) :
    ∀ (pages : List (Except String (List S3Object))) (s : SState),
      ∃ t, (deleteAllObjectsInBucket o bucketName s pages).1.trace = s.trace ++ t
        ∧ ∀ e ∈ t, isObjPhaseEv e = true := by
  intro pages
  induction pages with
  | nil => intro s; exact ⟨[], by simp [deleteAllObjectsInBucket], by simp⟩
  | cons page rest ih =>
    intro s
    by_cases hw : o.rateOk s.calls
    · rcases page with e | contents
      · have hstep : deleteAllObjectsInBucket o bucketName s (Except.error e :: rest)
            = (⟨s.calls + 2, s.trace ++ [SEv.rateWait, SEv.listPage]⟩,
               some ("failed to list objects page: " ++ e)) := by
          simp [deleteAllObjectsInBucket, opRateWait, opListPage, hw]
        rw [hstep]
        exact ⟨[SEv.rateWait, SEv.listPage], rfl, by simp [isObjPhaseEv]⟩
      · by_cases hc : contents.isEmpty
        · have hstep : deleteAllObjectsInBucket o bucketName s (Except.ok contents :: rest)
              = deleteAllObjectsInBucket o bucketName
                  ⟨s.calls + 2, s.trace ++ [SEv.rateWait, SEv.listPage]⟩ rest := by
            simp [deleteAllObjectsInBucket, opRateWait, opListPage, hw, hc]
          rw [hstep]
          obtain ⟨t, ht, hobj⟩ := ih ⟨s.calls + 2, s.trace ++ [SEv.rateWait, SEv.listPage]⟩
          refine ⟨[SEv.rateWait, SEv.listPage] ++ t, by rw [ht]; simp, ?_⟩
          intro e he
          rcases List.mem_append.mp he with h | h
          · rcases List.mem_cons.mp h with rfl | h
            · rfl
            · rcases List.mem_cons.mp h with rfl | h
              · rfl
              · simp at h
          · exact hobj e h
        · obtain ⟨t1, ht1, hobj1⟩ := deleteBucketObjectsOptimized_objPhase o
            ⟨s.calls + 2, s.trace ++ [SEv.rateWait, SEv.listPage]⟩ contents
          rcases hres : (deleteBucketObjectsOptimized o
              ⟨s.calls + 2, s.trace ++ [SEv.rateWait, SEv.listPage]⟩ contents).2.2 with _ | e
          · have hstep : deleteAllObjectsInBucket o bucketName s (Except.ok contents :: rest)
                = deleteAllObjectsInBucket o bucketName
                    (deleteBucketObjectsOptimized o
                      ⟨s.calls + 2, s.trace ++ [SEv.rateWait, SEv.listPage]⟩ contents).1 rest := by
              simp [deleteAllObjectsInBucket, opRateWait, opListPage, hw, hc, hres]
            rw [hstep]
            obtain ⟨t2, ht2, hobj2⟩ := ih (deleteBucketObjectsOptimized o
              ⟨s.calls + 2, s.trace ++ [SEv.rateWait, SEv.listPage]⟩ contents).1
            refine ⟨[SEv.rateWait, SEv.listPage] ++ t1 ++ t2, ?_, ?_⟩
            · rw [ht2, ht1]
              simp
            · intro e he
              rcases List.mem_append.mp he with h | h
              · rcases List.mem_append.mp h with h | h
                · rcases List.mem_cons.mp h with rfl | h
                  · rfl
                  · rcases List.mem_cons.mp h with rfl | h
                    · rfl
                    · simp at h
                · exact hobj1 e h
              · exact hobj2 e h
          · have hstep : deleteAllObjectsInBucket o bucketName s (Except.ok contents :: rest)
                = ((deleteBucketObjectsOptimized o
                      ⟨s.calls + 2, s.trace ++ [SEv.rateWait, SEv.listPage]⟩ contents).1,
                   some ("failed to delete batch of objects: " ++ e)) := by
              simp [deleteAllObjectsInBucket, opRateWait, opListPage, hw, hc, hres]
            rw [hstep]
            refine ⟨[SEv.rateWait, SEv.listPage] ++ t1, by rw [ht1]; simp, ?_⟩
            intro e he
            rcases List.mem_append.mp he with h | h
            · rcases List.mem_cons.mp h with rfl | h
              · rfl
              · rcases List.mem_cons.mp h with rfl | h
                · rfl
                · simp at h
            · exact hobj1 e h
    · have hwf : o.rateOk s.calls = false := by
        revert hw; cases o.rateOk s.calls <;> simp
      have hstep : deleteAllObjectsInBucket o bucketName s (page :: rest)
          = (⟨s.calls + 1, s.trace ++ [SEv.rateWait]⟩,
             some "rate limiter context cancelled") := by
        simp [deleteAllObjectsInBucket, opRateWait, hwf]
      rw [hstep]
      exact ⟨[SEv.rateWait], rfl, by simp [isObjPhaseEv]⟩

/-- The bucket-removal retry loop emits no batch-delete and no listing
event. -/
theorem deleteBucketWithRetryAux_removalPhase (o : SOracle) :
    ∀ (rem attempt : Nat) (s : SState),
      ∃ t, (deleteBucketWithRetryAux o attempt rem s).1.trace = s.trace ++ t
        ∧ ∀ e ∈ t, isRemovalPhaseEv e = true := by
  intro rem
  induction rem with
  | zero => intro attempt s; exact ⟨[], by simp [deleteBucketWithRetryAux], by simp⟩
  | succ rem ih =>
    intro attempt s
    by_cases hw : o.rateOk s.calls
    · rcases hbv : o.removeRes (s.calls + 1) with _ | e
      · have hstep : deleteBucketWithRetryAux o attempt (rem + 1) s
            = (⟨s.calls + 2, s.trace ++ [SEv.rateWait, SEv.removeBucket]⟩, none) := by
          simp [deleteBucketWithRetryAux, opRateWait, opRemoveBucket, hw, hbv]
        rw [hstep]
        exact ⟨[SEv.rateWait, SEv.removeBucket], rfl, by simp [isRemovalPhaseEv]⟩
      · by_cases hr : rem = 0
        · subst hr
          have hstep : deleteBucketWithRetryAux o attempt 1 s
              = (⟨s.calls + 2, s.trace ++ [SEv.rateWait, SEv.removeBucket]⟩,
                 some ("bucket deletion failed after 4 attempts: " ++ e)) := by
            simp [deleteBucketWithRetryAux, opRateWait, opRemoveBucket, hw, hbv]
          rw [hstep]
          exact ⟨[SEv.rateWait, SEv.removeBucket], rfl, by simp [isRemovalPhaseEv]⟩
        · by_cases hs : o.sleepOk (s.calls + 2)
          · have hstep : deleteBucketWithRetryAux o attempt (rem + 1) s
                = deleteBucketWithRetryAux o (attempt + 1) rem
                    ⟨s.calls + 3, s.trace ++ [SEv.rateWait, SEv.removeBucket,
                      SEv.sleep (retryDelayMs attempt)]⟩ := by
              simp [deleteBucketWithRetryAux, opRateWait, opRemoveBucket, opSleep,
                hw, hbv, hr, hs]
            rw [hstep]
            obtain ⟨t, ht, hrem⟩ := ih (attempt + 1)
              ⟨s.calls + 3, s.trace ++ [SEv.rateWait, SEv.removeBucket,
                SEv.sleep (retryDelayMs attempt)]⟩
            refine ⟨[SEv.rateWait, SEv.removeBucket, SEv.sleep (retryDelayMs attempt)] ++ t,
              by rw [ht]; simp, ?_⟩
            intro e he
            rcases List.mem_append.mp he with h | h
            · rcases List.mem_cons.mp h with rfl | h
              · rfl
              · rcases List.mem_cons.mp h with rfl | h
                · rfl
                · rcases List.mem_cons.mp h with rfl | h
                  · rfl
                  · simp at h
            · exact hrem e h
          · have hstep : deleteBucketWithRetryAux o attempt (rem + 1) s
                = (⟨s.calls + 3, s.trace ++ [SEv.rateWait, SEv.removeBucket,
                    SEv.sleep (retryDelayMs attempt)]⟩, some "context canceled") := by
              simp [deleteBucketWithRetryAux, opRateWait, opRemoveBucket, opSleep,
                hw, hbv, hr, hs]
            rw [hstep]
            exact ⟨[SEv.rateWait, SEv.removeBucket, SEv.sleep (retryDelayMs attempt)],
              rfl, by simp [isRemovalPhaseEv]⟩
    · have hwf : o.rateOk s.calls = false := by
        revert hw; cases o.rateOk s.calls <;> simp
      have hstep : deleteBucketWithRetryAux o attempt (rem + 1) s
          = (⟨s.calls + 1, s.trace ++ [SEv.rateWait]⟩,
             some "rate limiter context cancelled") := by
        simp [deleteBucketWithRetryAux, opRateWait, hwf]
      rw [hstep]
      exact ⟨[SEv.rateWait], rfl, by simp [isRemovalPhaseEv]⟩

/-- C5: `DeleteBucket`'s trace splits into an object-deletion phase (no
bucket-removal event) followed by a removal phase (no batch delete, no
page listing): the bucket-removal call is only ever issued after all
object deletion completed.  When object deletion fails, the error is
wrapped and surfaced and the whole trace is removal-free: bucket removal
is never attempted. -/
theorem deleteBucket_removal_after_object_deletion
    (o : SOracle) (s : SState) (bucketName : String)
    (pages : List (Except String (List S3Object))) :
    (∃ t1 t2, (DeleteBucket o s bucketName pages).1.trace = s.trace ++ t1 ++ t2
      ∧ (∀ e ∈ t1, isObjPhaseEv e = true)
      ∧ (∀ e ∈ t2, isRemovalPhaseEv e = true))
    ∧ (∀ e, (deleteAllObjectsInBucket o bucketName s pages).2 = some e →
        (DeleteBucket o s bucketName pages).2
            = some ("failed to delete objects in bucket " ++ bucketName ++ ": " ++ e)
        ∧ ∃ t, (DeleteBucket o s bucketName pages).1.trace = s.trace ++ t
            ∧ ∀ ev ∈ t, isObjPhaseEv ev = true) := by
  obtain ⟨t1, ht1, hobj1⟩ := deleteAllObjectsInBucket_objPhase o bucketName pages s
  rcases hres : (deleteAllObjectsInBucket o bucketName s pages).2 with _ | e0
  · obtain ⟨t2, ht2, hrem2⟩ := deleteBucketWithRetryAux_removalPhase o (maxRetries + 1) 0
      (deleteAllObjectsInBucket o bucketName s pages).1
    have hfst : (DeleteBucket o s bucketName pages).1
        = (deleteBucketWithRetry o (deleteAllObjectsInBucket o bucketName s pages).1).1 := by
      rw [DeleteBucket]
      simp only [hres]
      rcases (deleteBucketWithRetry o (deleteAllObjectsInBucket o bucketName s pages).1).2
        with _ | e2 <;> simp
    constructor
    · refine ⟨t1, t2, ?_, hobj1, hrem2⟩
      rw [hfst]
      have : (deleteBucketWithRetry o (deleteAllObjectsInBucket o bucketName s pages).1).1.trace
          = (deleteAllObjectsInBucket o bucketName s pages).1.trace ++ t2 := ht2
      rw [this, ht1, List.append_assoc]
    · intro e he
      exact absurd he (by simp)
  · have hstep : DeleteBucket o s bucketName pages
        = ((deleteAllObjectsInBucket o bucketName s pages).1,
           some ("failed to delete objects in bucket " ++ bucketName ++ ": " ++ e0)) := by
      rw [DeleteBucket]
      simp only [hres]
    constructor
    · refine ⟨t1, [], ?_, hobj1, by simp⟩
      rw [hstep]
      simpa using ht1
    · intro e he
      have : e0 = e := by
        injection he
      subst this
      rw [hstep]
      exact ⟨rfl, t1, ht1, hobj1⟩

/-- Witness for the failure clause of the C5 theorem: a single failing
listing page makes object deletion fail; `DeleteBucket` surfaces the
wrapped error and its trace holds no bucket-removal event. -/
theorem deleteBucket_removal_after_object_deletion_witness :
    (DeleteBucket oFailBatch ⟨0, []⟩ "b" [Except.error "x"]).2
        = some ("failed to delete objects in bucket " ++ "b" ++ ": "
            ++ ("failed to list objects page: " ++ "x"))
    ∧ ∃ t, (DeleteBucket oFailBatch ⟨0, []⟩ "b" [Except.error "x"]).1.trace
        = (⟨0, []⟩ : SState).trace ++ t
        ∧ ∀ ev ∈ t, isObjPhaseEv ev = true :=
  (deleteBucket_removal_after_object_deletion oFailBatch ⟨0, []⟩ "b" [Except.error "x"]).2
    ("failed to list objects page: " ++ "x") rfl

end S3

/-- `entity.Project`: the fields the cleansing walk reads (`Id`, `Code`);
the remaining columns never influence the embedded functions. -/
structure Project where
  id : Int
  code : String
deriving DecidableEq, Repr

/-- `entity.Site`: fields read by the walk (`Id`, `Code`, `ProjectId`). -/
structure Site where
  id : Int
  code : String
  projectId : Int
deriving DecidableEq, Repr

/-- `entity.DocumentGroup` (declared outside src; its fields `Id`,
`Category`, `Progress`, `ProcessedName` are fixed by their uses in
file_service.go). -/
structure DocumentGroup where
  id : Int
  category : String
  progress : Int
  processedName : String
deriving DecidableEq, Repr

/-- `entity.Document`: fields read by the walk. -/
structure Document where
  id : Int
  groupID : Int
deriving DecidableEq, Repr

/-- `entity.File`: fields read by the walk (`Id`, `DocumentId`, `Size`,
`Name`). -/
structure File where
  id : Int
  documentId : Int
  size : Int
  name : String
deriving DecidableEq, Repr

namespace FileService

/-- The repository reads `FileServiceImpl` depends on
(src/src/repository/interfaces.go), as pure fallible lookups. -/
structure Repos where
  projectsByContractor : Int → Except String (List Project)
  projectByID : Int → Except String Project
  sitesByProject : Int → Except String (List Site)
  siteByID : Int → Except String Site
  groupsBySite : Int → Except String (List DocumentGroup)
  docsByGroup : Int → Except String (List Document)
  filesByDocument : Int → Except String (List File)

/-- Go `continue` on a failed child read (file_service.go:72-75, 86-89,
95-98, 104-107 and the analogous spots of the other walkers): the failed
branch contributes nothing and the walk goes on. -/
def orSkip {α : Type} : Except String (List α) → List α
  | Except.ok l => l
  | Except.error _ => []

/-- `buildS3ObjectsFromFile` (file_service.go:273-308): one upload key per
file under `{project.Code}/{site.Code}/00_Upload/`; for the split-name
categories a file name that splits on `/` into at least two segments
becomes `{seg0}/Raw/{seg1}`, otherwise the stored name is used as is.
Only `Key` is populated (`Bucket` is left for later configuration). -/
def buildS3ObjectsFromFile (project : Project) (site : Site)
    (docGroup : DocumentGroup) (file : File) : List S3Object :=
  let needSplit : Bool :=
    docGroup.category == "Boundary" || docGroup.category == "LineRoute" ||
    docGroup.category == "SBEST" || docGroup.category == "SBP" ||
    docGroup.category == "SoilSample" || docGroup.category == "SSS"
  let basePath := project.code ++ "/" ++ site.code ++ "/00_Upload/"
  let fileName :=
    if needSplit then
      match file.name.splitOn "/" with
      | seg0 :: seg1 :: _ => seg0 ++ "/Raw/" ++ seg1
      | _ => file.name
    else file.name
  [{ region := "", bucket := "", key := basePath ++ fileName, size := 0 }]

/-- `buildProcessedS3Objects` (file_service.go:311-335): the main
`.geojson` key under `{project.Code}/{site.Code}/01_Processed/`, plus the
three banded raster keys for the raster/image categories. -/
def buildProcessedS3Objects (project : Project) (site : Site)
    (docGroup : DocumentGroup) : List S3Object :=
  let basePath := project.code ++ "/" ++ site.code ++ "/01_Processed/"
  let mainObjs : List S3Object :=
    [{ region := "", bucket := "",
       key := basePath ++ docGroup.processedName ++ ".geojson", size := 0 }]
  if docGroup.category == "RasterD" || docGroup.category == "RasterO"
      || docGroup.category == "Image" then
    mainObjs ++ (["_B01.tif", "_B02.tif", "_B03.tif"].map
      (fun t => { region := "", bucket := "",
                  key := basePath ++ docGroup.processedName ++ t, size := 0 }))
  else mainObjs

/-- The guard `(docGroup.Progress == 40 || docGroup.Progress == 11) &&
docGroup.ProcessedName != ""` that the three walkers place around
`buildProcessedS3Objects` (file_service.go:117-121, 189-193, 257-261),
factored with its body. -/
def processedObjectsForGroup (project : Project) (site : Site)
    (docGroup : DocumentGroup) : List S3Object :=
  if (docGroup.progress == 40 || docGroup.progress == 11)
      && !(docGroup.processedName == "") then
    buildProcessedS3Objects project site docGroup
  else []

/-- The per-document-group body shared by the three walkers: documents →
files → upload keys, then the processed artefacts when the group
qualifies; failed document or file reads are skipped. -/
def groupObjects (r : Repos) (project : Project) (site : Site)
    (docGroup : DocumentGroup) : List S3Object :=
  ((orSkip (r.docsByGroup docGroup.id)).flatMap (fun doc =>
    (orSkip (r.filesByDocument doc.id)).flatMap (fun file =>
      buildS3ObjectsFromFile project site docGroup file)))
  ++ processedObjectsForGroup project site docGroup

/-- `FileServiceImpl.GetContractorFiles` (file_service.go:54-132): the
projects read is fatal; below it, failed sites/groups/documents/files
reads are skipped with a warning and the walk continues. -/
def GetContractorFiles (r : Repos) (contractorID : Int) :
    Except String (List S3Object) :=
  match r.projectsByContractor contractorID with
  | Except.error e =>
    Except.error ("failed to get projects for contractor " ++ toString contractorID
      ++ ": " ++ e)
  | Except.ok projects =>
    Except.ok (projects.flatMap (fun project =>
      (orSkip (r.sitesByProject project.id)).flatMap (fun site =>
        (orSkip (r.groupsBySite site.id)).flatMap (fun docGroup =>
          groupObjects r project site docGroup))))

/-- `FileServiceImpl.GetProjectFiles` (file_service.go:135-203): the
project and sites reads are fatal; below them, failed
groups/documents/files reads are skipped. -/
def GetProjectFiles (r : Repos) (projectID : Int) :
    Except String (List S3Object) :=
  match r.projectByID projectID with
  | Except.error e =>
    Except.error ("failed to get project " ++ toString projectID ++ ": " ++ e)
  | Except.ok project =>
    match r.sitesByProject projectID with
    | Except.error e =>
      Except.error ("failed to get sites for project " ++ toString projectID ++ ": " ++ e)
    | Except.ok sites =>
      Except.ok (sites.flatMap (fun site =>
        (orSkip (r.groupsBySite site.id)).flatMap (fun docGroup =>
          groupObjects r project site docGroup)))

/-- `FileServiceImpl.GetSiteFiles` (file_service.go:206-270): the site,
project and document-groups reads are fatal (the groups read returns an
error, file_service.go:225-228); below them, failed documents/files reads
are skipped. -/
def GetSiteFiles (r : Repos) (siteID : Int) : Except String (List S3Object) :=
  match r.siteByID siteID with
  | Except.error e =>
    Except.error ("failed to get site " ++ toString siteID ++ ": " ++ e)
  | Except.ok site =>
    match r.projectByID site.projectId with
    | Except.error e =>
      Except.error ("failed to get project " ++ toString site.projectId
        ++ " for site " ++ toString siteID ++ ": " ++ e)
    | Except.ok project =>
      match r.groupsBySite siteID with
      | Except.error e =>
        Except.error ("failed to get document groups for site " ++ toString siteID
          ++ ": " ++ e)
      | Except.ok documentGroups =>
        Except.ok (documentGroups.flatMap (fun docGroup =>
          groupObjects r project site docGroup))

/-- The upload-key name as the specification words it: for a category in
the split set and a `/`-split of at least two segments, use
`{seg0}/Raw/{seg1}`; for any other category, or fewer than two segments,
use the stored file name unmodified. -/
def specUploadName (docGroup : DocumentGroup) (file : File) : String :=
  if docGroup.category ∈ ["Boundary", "LineRoute", "SBEST", "SBP", "SoilSample", "SSS"]
      ∧ 2 ≤ (file.name.splitOn "/").length then
    match file.name.splitOn "/" with
    | seg0 :: seg1 :: _ => seg0 ++ "/Raw/" ++ seg1
    | _ => file.name
  else file.name

/-- C8: key derivation never fails — `buildS3ObjectsFromFile` always
returns exactly one object, whose key is the base path
`{project.code}/{site.code}/00_Upload/` followed by the name the
specification's rule derives. -/
theorem buildS3ObjectsFromFile_matches_spec (project : Project) (site : Site)
    (docGroup : DocumentGroup) (file : File) :
    buildS3ObjectsFromFile project site docGroup file
      = [{ region := "", bucket := "",
           key := project.code ++ "/" ++ site.code ++ "/00_Upload/"
             ++ specUploadName docGroup file, size := 0 }] := by
  rw [buildS3ObjectsFromFile, specUploadName]
  by_cases hcat : docGroup.category ∈ ["Boundary", "LineRoute", "SBEST", "SBP",
    "SoilSample", "SSS"]
  · have hb : (docGroup.category == "Boundary" || docGroup.category == "LineRoute" ||
        docGroup.category == "SBEST" || docGroup.category == "SBP" ||
        docGroup.category == "SoilSample" || docGroup.category == "SSS") = true := by
      simp at hcat
      rcases hcat with h | h | h | h | h | h <;> simp [h]
    simp only [hb, if_true]
    rcases hsplit : file.name.splitOn "/" with _ | ⟨seg0, _ | ⟨seg1, rest⟩⟩
    · simp [hsplit, hcat]
    · have : ¬ (docGroup.category ∈ ["Boundary", "LineRoute", "SBEST", "SBP",
          "SoilSample", "SSS"] ∧ 2 ≤ (file.name.splitOn "/").length) := by
        rw [hsplit]; simp
      simp [hsplit, this]
    · have hlen : (docGroup.category ∈ ["Boundary", "LineRoute", "SBEST", "SBP",
          "SoilSample", "SSS"] ∧ 2 ≤ (file.name.splitOn "/").length) := by
        rw [hsplit]; simp [hcat]
      simp [hsplit, hlen]
  · have hb : (docGroup.category == "Boundary" || docGroup.category == "LineRoute" ||
        docGroup.category == "SBEST" || docGroup.category == "SBP" ||
        docGroup.category == "SoilSample" || docGroup.category == "SSS") = false := by
      simp at hcat
      simp [hcat]
    have hnot : ¬ (docGroup.category ∈ ["Boundary", "LineRoute", "SBEST", "SBP",
        "SoilSample", "SSS"] ∧ 2 ≤ (file.name.splitOn "/").length) := by
      intro h
      exact hcat h.1
    rw [if_neg hnot]
    simp [hb]

/-- The processed-artifact keys as the specification words them: always
the `.geojson` key, plus the three banded `.tif` keys exactly for the
raster/image categories. -/
def specProcessedKeys (project : Project) (site : Site)
    (docGroup : DocumentGroup) : List S3Object :=
  let basePath := project.code ++ "/" ++ site.code ++ "/01_Processed/"
  { region := "", bucket := "", key := basePath ++ docGroup.processedName ++ ".geojson",
    size := 0 }
    :: (if docGroup.category ∈ ["RasterD", "RasterO", "Image"] then
        [{ region := "", bucket := "", key := basePath ++ docGroup.processedName ++ "_B01.tif",
           size := 0 },
         { region := "", bucket := "", key := basePath ++ docGroup.processedName ++ "_B02.tif",
           size := 0 },
         { region := "", bucket := "", key := basePath ++ docGroup.processedName ++ "_B03.tif",
           size := 0 }]
      else [])

/-- C9: processed-artifact keys are emitted for a document group iff its
progress is 40 or 11 and its processed name is non-empty; when emitted
they are exactly the `.geojson` key followed, for the RasterD / RasterO /
Image categories, by the three banded `.tif` keys. -/
theorem processedObjectsForGroup_matches_spec (project : Project) (site : Site)
    (docGroup : DocumentGroup) :
    (processedObjectsForGroup project site docGroup
        = if (docGroup.progress = 40 ∨ docGroup.progress = 11) ∧ docGroup.processedName ≠ ""
          then specProcessedKeys project site docGroup
          else [])
    ∧ (processedObjectsForGroup project site docGroup ≠ []
        ↔ (docGroup.progress = 40 ∨ docGroup.progress = 11)
            ∧ docGroup.processedName ≠ "") := by
  have hbuild : buildProcessedS3Objects project site docGroup
      = specProcessedKeys project site docGroup := by
    rw [buildProcessedS3Objects, specProcessedKeys]
    by_cases hcat : docGroup.category ∈ ["RasterD", "RasterO", "Image"]
    · have hb : (docGroup.category == "RasterD" || docGroup.category == "RasterO"
          || docGroup.category == "Image") = true := by
        simp at hcat
        rcases hcat with h | h | h <;> simp [h]
      simp [hb, hcat]
    · have hb : (docGroup.category == "RasterD" || docGroup.category == "RasterO"
          || docGroup.category == "Image") = false := by
        simp at hcat
        simp [hcat]
      simp [hb, hcat]
  have hcond : ((docGroup.progress == 40 || docGroup.progress == 11)
      && !(docGroup.processedName == "")) = true
      ↔ ((docGroup.progress = 40 ∨ docGroup.progress = 11)
          ∧ docGroup.processedName ≠ "") := by
    simp
  constructor
  · rw [processedObjectsForGroup]
    by_cases hc : (docGroup.progress = 40 ∨ docGroup.progress = 11)
        ∧ docGroup.processedName ≠ ""
    · rw [if_pos (hcond.mpr hc), if_pos hc, hbuild]
    · rw [if_neg (fun h => hc (hcond.mp h)), if_neg hc]
  · rw [processedObjectsForGroup]
    by_cases hc : (docGroup.progress = 40 ∨ docGroup.progress = 11)
        ∧ docGroup.processedName ≠ ""
    · rw [if_pos (hcond.mpr hc), hbuild]
      simp [specProcessedKeys, hc]
    · rw [if_neg (fun h => hc (hcond.mp h))]
      simp [hc]

/-- A repository environment in which reading the site's document groups
fails; everything above succeeds. -/
def reposSiteGroupsFail : Repos :=
  { projectsByContractor := fun _ => Except.ok []
  , projectByID := fun _ => Except.ok { id := 1, code := "P" }
  , sitesByProject := fun _ => Except.ok []
  , siteByID := fun _ => Except.ok { id := 42, code := "S", projectId := 1 }
  , groupsBySite := fun _ => Except.error "db down"
  , docsByGroup := fun _ => Except.ok []
  , filesByDocument := fun _ => Except.ok [] }

/-- C7 counterexample: in the site entry point, failure to read the
site's document groups — the claim's own example of a skippable branch —
aborts the whole resolution with an error instead of returning a partial
key set. -/
theorem getSiteFiles_groups_failure_counterexample :
    GetSiteFiles reposSiteGroupsFail 42
      = Except.error ("failed to get document groups for site " ++ toString (42 : Int)
          ++ ": " ++ "db down") := rfl

/-- A hierarchy with two projects in which the first project's sites read
fails; the second project resolves one site, group, document and file. -/
def reposTwoProjects : Repos :=
  { projectsByContractor := fun _ =>
      Except.ok [{ id := 1, code := "P1" }, { id := 2, code := "P2" }]
  , projectByID := fun i => Except.ok { id := i, code := "P" }
  , sitesByProject := fun i =>
      if i == 1 then Except.error "sites unreachable"
      else Except.ok [{ id := 20, code := "S", projectId := 2 }]
  , siteByID := fun _ => Except.ok { id := 20, code := "S", projectId := 2 }
  , groupsBySite := fun _ =>
      Except.ok [{ id := 30, category := "Vector", progress := 0, processedName := "" }]
  , docsByGroup := fun _ => Except.ok [{ id := 40, groupID := 30 }]
  , filesByDocument := fun _ =>
      Except.ok [{ id := 50, documentId := 40, size := 5, name := "f.txt" }] }

/-- C7 (amended): below each entry point's root-level reads, a failed
branch read is skipped and resolution continues, so whenever the
root-level reads succeed the walk returns a key set (never an error) —
projects for the contractor scope; project and sites for the project
scope; site, its project, and its document groups for the site scope.  A
branch whose read fails contributes nothing while the other branches'
keys are still returned (shown on a two-project hierarchy whose first
project's sites read fails).  Root-level read failures, however, abort
with an error (see the counterexample). -/
theorem hierarchy_resolution_skips_branch_failures :
    (∀ (r : Repos) (cid : Int) (ps : List Project),
        r.projectsByContractor cid = Except.ok ps →
        ∃ objs, GetContractorFiles r cid = Except.ok objs)
    ∧ (∀ (r : Repos) (pid : Int) (p : Project) (ss : List Site),
        r.projectByID pid = Except.ok p → r.sitesByProject pid = Except.ok ss →
        ∃ objs, GetProjectFiles r pid = Except.ok objs)
    ∧ (∀ (r : Repos) (sid : Int) (st : Site) (p : Project) (gs : List DocumentGroup),
        r.siteByID sid = Except.ok st → r.projectByID st.projectId = Except.ok p →
        r.groupsBySite sid = Except.ok gs →
        ∃ objs, GetSiteFiles r sid = Except.ok objs)
    ∧ GetContractorFiles reposTwoProjects 7
        = Except.ok [{ region := "", bucket := "", key := "P2/S/00_Upload/f.txt", size := 0 }]
    := by
  refine ⟨?_, ?_, ?_, rfl⟩
  · intro r cid ps h
    rw [GetContractorFiles, h]
    exact ⟨_, rfl⟩
  · intro r pid p ss h1 h2
    rw [GetProjectFiles, h1, h2]
    exact ⟨_, rfl⟩
  · intro r sid st p gs h1 h2 h3
    simp only [GetSiteFiles, h1, h2, h3]
    exact ⟨_, rfl⟩

/-- Witness for the C7 theorem: the site entry point at the concrete
two-project hierarchy, all three root-level reads succeeding. -/
theorem hierarchy_resolution_skips_branch_failures_witness :
    ∃ objs, GetSiteFiles reposTwoProjects 20 = Except.ok objs :=
  hierarchy_resolution_skips_branch_failures.2.2.1 reposTwoProjects 20
    { id := 20, code := "S", projectId := 2 } { id := 2, code := "P" }
    [{ id := 30, category := "Vector", progress := 0, processedName := "" }]
    rfl rfl rfl

end FileService

namespace Cleansing

/-- `dto.CleansingMessage` (src/src/dto/message.go:12-15). -/
structure CleansingMessage where
  type : String
  id : Int
deriving DecidableEq, Repr

/-- `dto.CleansingResult` (src/src/dto/message.go:18-25).  The Go `Error`
string field; the function-level `error` return is modelled separately as
`Option String`. -/
structure CleansingResult where
  type : String
  id : Int
  success : Bool
  message : String
  filesDeleted : Nat
  error : String
deriving DecidableEq, Repr

def CleansingTypeContractor : String := "contractor"

def CleansingTypeProject : String := "project"

def CleansingTypeSite : String := "site"

/-- `CleansingMessage.IsValidType` (src/src/dto/message.go:43-50). -/
def CleansingMessage.IsValidType (m : CleansingMessage) : Bool :=
  m.type == CleansingTypeContractor || m.type == CleansingTypeProject
    || m.type == CleansingTypeSite

/-- One repository or storage call made by `CleansingServiceImpl`,
recorded with its arguments. -/
inductive CEv where
  | listContractorFiles (id : Int)
  | listProjectFiles (id : Int)
  | listSiteFiles (id : Int)
  | deleteObjects (n : Nat)
  | getSiteByID (id : Int)
  | getProjectsByContractor (id : Int)
  | getSitesByProject (id : Int)
  | fileHardDeleteBySite (id : Int)
  | documentHardDeleteBySite (id : Int)
  | documentGroupHardDeleteBySite (id : Int)
  | siteHardDelete (id : Int)
  | siteHardDeleteByProject (id : Int)
  | projectHardDelete (id : Int)
  | projectHardDeleteByContractor (id : Int)
  | contractorDelete (id : Int)
  | updateProjectUsage (id : Int) (delta : Int)
deriving DecidableEq, Repr

/-- The collaborators `CleansingServiceImpl` calls (S3 service and the
repositories), as pure argument-indexed outcomes; every call the
implementation makes is additionally recorded in the trace. -/
structure CleansingEnv where
  listContractorFiles : Int → Except String (List S3Object)
  listProjectFiles : Int → Except String (List S3Object)
  listSiteFiles : Int → Except String (List S3Object)
  deleteObjects : List S3Object → Nat × Option String
  getSiteByID : Int → Except String Site
  getProjectsByContractor : Int → Except String (List Project)
  getSitesByProject : Int → Except String (List Site)
  fileHardDeleteBySite : Int → Option String
  documentHardDeleteBySite : Int → Option String
  documentGroupHardDeleteBySite : Int → Option String
  siteHardDelete : Int → Option String
  siteHardDeleteByProject : Int → Option String
  projectHardDelete : Int → Option String
  projectHardDeleteByContractor : Int → Option String
  contractorDelete : Int → Option String
  updateProjectUsage : Int → Int → Option String

/-- The empty result each deletion method starts from:
`&dto.CleansingResult{Type: ..., ID: ..., Success: false}`. -/
def emptyResult (t : String) (i : Int) : CleansingResult :=
  { type := t, id := i, success := false, message := "", filesDeleted := 0, error := "" }

/-- `CleansingServiceImpl.DeleteSiteFiles` (the cascade revision,
src/unnamed/part_006:320-421): read the site, list its objects, delete
them, best-effort usage update, then the relational cascade bottom-up —
files, documents, document groups, site row — each cascade failure
fatal. -/
def DeleteSiteFiles (env : CleansingEnv) (tr : List CEv) (siteID : Int) :
    List CEv × CleansingResult × Option String :=
  let result0 := emptyResult CleansingTypeSite siteID
  let tr := tr ++ [CEv.getSiteByID siteID]
  match env.getSiteByID siteID with
  | Except.error e =>
    (tr, { result0 with error := "failed to get site information: " ++ e }, some e)
  | Except.ok site =>
    let tr := tr ++ [CEv.listSiteFiles siteID]
    match env.listSiteFiles siteID with
    | Except.error e =>
      (tr, { result0 with error := "failed to list site files: " ++ e }, some e)
    | Except.ok s3Objects =>
      let tr := tr ++ [CEv.deleteObjects s3Objects.length]
      let dres := env.deleteObjects s3Objects
      match dres.2 with
      | some e =>
        (tr, { result0 with error := "failed to delete site files: " ++ e, filesDeleted := dres.1 }, some e)
      | none =>
        let totalSize := (s3Objects.map S3Object.size).sum
        let tr := tr ++ [CEv.updateProjectUsage site.projectId (-totalSize)]
        let tr := tr ++ [CEv.fileHardDeleteBySite siteID]
        match env.fileHardDeleteBySite siteID with
        | some e =>
          (tr, { result0 with error := "failed to delete file records: " ++ e, filesDeleted := dres.1 }, some e)
        | none =>
          let tr := tr ++ [CEv.documentHardDeleteBySite siteID]
          match env.documentHardDeleteBySite siteID with
          | some e =>
            (tr, { result0 with error := "failed to delete document records: " ++ e, filesDeleted := dres.1 }, some e)
          | none =>
            let tr := tr ++ [CEv.documentGroupHardDeleteBySite siteID]
            match env.documentGroupHardDeleteBySite siteID with
            | some e =>
              (tr, { result0 with error := "failed to delete document group records: " ++ e, filesDeleted := dres.1 }, some e)
            | none =>
              let tr := tr ++ [CEv.siteHardDelete siteID]
              match env.siteHardDelete siteID with
              | some e =>
                (tr, { result0 with error := "failed to delete site record: " ++ e, filesDeleted := dres.1 }, some e)
              | none =>
                (tr, { result0 with success := true, filesDeleted := dres.1 }, none)

/-- `calculateSizeForDeletedFiles` (src/unnamed/part_006:435-445): the
sizes of the first `deletedCount` objects. -/
def calculateSizeForDeletedFiles (s3Objects : List S3Object) (deletedCount : Nat) : Int :=
  ((s3Objects.take deletedCount).map S3Object.size).sum

/-- `CleansingServiceImpl.DeleteProjectFiles` (src/unnamed/part_006:199-317):
list and delete the project's objects (partial usage update when deletion
fails midway), usage update, then the cascade over the project's sites —
per-site descendant deletes are logged-and-tolerated, the sites-row and
project-row deletes are fatal. -/
def DeleteProjectFiles (env : CleansingEnv) (tr : List CEv) (projectID : Int) :
    List CEv × CleansingResult × Option String :=
  let result0 := emptyResult CleansingTypeProject projectID
  let tr := tr ++ [CEv.listProjectFiles projectID]
  match env.listProjectFiles projectID with
  | Except.error e =>
    (tr, { result0 with error := "failed to list project files: " ++ e }, some e)
  | Except.ok s3Objects =>
    let tr := tr ++ [CEv.deleteObjects s3Objects.length]
    let dres := env.deleteObjects s3Objects
    match dres.2 with
    | some e =>
      let tr :=
        if dres.1 > 0 then
          tr ++ [CEv.updateProjectUsage projectID
            (-(calculateSizeForDeletedFiles s3Objects dres.1))]
        else tr
      (tr, { result0 with error := "failed to delete project files: " ++ e, filesDeleted := dres.1 }, some e)
    | none =>
      let totalSize := (s3Objects.map S3Object.size).sum
      let tr := tr ++ [CEv.updateProjectUsage projectID (-totalSize)]
      let tr := tr ++ [CEv.getSitesByProject projectID]
      match env.getSitesByProject projectID with
      | Except.error e =>
        (tr, { result0 with error := "failed to get sites for project: " ++ e, filesDeleted := dres.1 }, some e)
      | Except.ok sites =>
        let tr := sites.foldl (fun tr site =>
          tr ++ [CEv.fileHardDeleteBySite site.id, CEv.documentHardDeleteBySite site.id,
            CEv.documentGroupHardDeleteBySite site.id]) tr
        let tr := tr ++ [CEv.siteHardDeleteByProject projectID]
        match env.siteHardDeleteByProject projectID with
        | some e =>
          (tr, { result0 with error := "failed to delete site records: " ++ e, filesDeleted := dres.1 }, some e)
        | none =>
          let tr := tr ++ [CEv.projectHardDelete projectID]
          match env.projectHardDelete projectID with
          | some e =>
            (tr, { result0 with error := "failed to delete project record: " ++ e, filesDeleted := dres.1 }, some e)
          | none =>
            (tr, { result0 with success := true, filesDeleted := dres.1 }, none)

/-- The per-site descendant deletes of the contractor cascade
(src/unnamed/part_006:149-164): files, documents, document groups — each
failure logged and tolerated. -/
def contractorSiteCascade (tr : List CEv) (sites : List Site) : List CEv :=
  sites.foldl (fun tr site =>
    tr ++ [CEv.fileHardDeleteBySite site.id, CEv.documentHardDeleteBySite site.id,
      CEv.documentGroupHardDeleteBySite site.id]) tr

/-- The per-project loop of the contractor cascade
(src/unnamed/part_006:142-170): a failed sites read skips the project;
otherwise its sites' descendants are deleted and then its site rows —
each failure logged and tolerated. -/
def contractorProjectCascade (env : CleansingEnv) (tr : List CEv)
    (projects : List Project) : List CEv :=
  projects.foldl (fun tr project =>
    let tr := tr ++ [CEv.getSitesByProject project.id]
    match env.getSitesByProject project.id with
    | Except.error _ => tr
    | Except.ok sites =>
      (contractorSiteCascade tr sites) ++ [CEv.siteHardDeleteByProject project.id]) tr

/-- `CleansingServiceImpl.DeleteContractorFiles` (the cascade revision,
src/unnamed/part_006:98-196): list and delete the contractor's objects,
then cascade over its projects; the projects-rows delete and the
contractor-row delete are fatal. -/
def DeleteContractorFiles (env : CleansingEnv) (tr : List CEv) (contractorID : Int) :
    List CEv × CleansingResult × Option String :=
  let result0 := emptyResult CleansingTypeContractor contractorID
  let tr := tr ++ [CEv.listContractorFiles contractorID]
  match env.listContractorFiles contractorID with
  | Except.error e =>
    (tr, { result0 with error := "failed to list contractor files: " ++ e }, some e)
  | Except.ok s3Objects =>
    let tr := tr ++ [CEv.deleteObjects s3Objects.length]
    let dres := env.deleteObjects s3Objects
    match dres.2 with
    | some e =>
      (tr, { result0 with error := "failed to delete contractor files: " ++ e, filesDeleted := dres.1 }, some e)
    | none =>
      let tr := tr ++ [CEv.getProjectsByContractor contractorID]
      match env.getProjectsByContractor contractorID with
      | Except.error e =>
        (tr, { result0 with error := "failed to get projects for contractor: " ++ e, filesDeleted := dres.1 }, some e)
      | Except.ok projects =>
        let tr := contractorProjectCascade env tr projects
        let tr := tr ++ [CEv.projectHardDeleteByContractor contractorID]
        match env.projectHardDeleteByContractor contractorID with
        | some e =>
          (tr, { result0 with error := "failed to delete project records: " ++ e, filesDeleted := dres.1 }, some e)
        | none =>
          let tr := tr ++ [CEv.contractorDelete contractorID]
          match env.contractorDelete contractorID with
          | some e =>
            (tr, { result0 with error := "failed to delete contractor record: " ++ e, filesDeleted := dres.1 }, some e)
          | none =>
            (tr, { result0 with success := true, filesDeleted := dres.1 }, none)

/-- `CleansingServiceImpl.ProcessCleansingMessage`
(src/src/service/cleansing_service.go:42-73): validate the scope type —
an invalid type yields an immediate failed result and a non-nil error
with no collaborator call — then route by type. -/
def ProcessCleansingMessage (env : CleansingEnv) (tr : List CEv)
    (message : CleansingMessage) : List CEv × CleansingResult × Option String :=
  if !message.IsValidType then
    (tr, { type := message.type, id := message.id, success := false, message := "",
           filesDeleted := 0, error := "invalid cleansing type: " ++ message.type },
     some ("invalid cleansing type: " ++ message.type))
  else if message.type == CleansingTypeContractor then
    DeleteContractorFiles env tr message.id
  else if message.type == CleansingTypeProject then
    DeleteProjectFiles env tr message.id
  else if message.type == CleansingTypeSite then
    DeleteSiteFiles env tr message.id
  else
    (tr, { type := message.type, id := message.id, success := false, message := "",
           filesDeleted := 0, error := "unsupported cleansing type: " ++ message.type },
     some ("unsupported cleansing type: " ++ message.type))

/-- C2: an invalid scope type makes `ProcessCleansingMessage` return, for
every environment and prior trace, the unchanged trace (zero repository
or storage calls), a result with the message's type and id,
`success = false`, `filesDeleted = 0`, the validation error string, and a
non-nil error. -/
theorem processCleansingMessage_invalid_no_side_effects (env : CleansingEnv)
    (tr : List CEv) (message : CleansingMessage)
    (h : message.IsValidType = false) :
    ProcessCleansingMessage env tr message
      = (tr, { type := message.type, id := message.id, success := false, message := "",
               filesDeleted := 0, error := "invalid cleansing type: " ++ message.type },
         some ("invalid cleansing type: " ++ message.type)) := by
  simp [ProcessCleansingMessage, h]

/-- An environment in which every collaborator call succeeds and no
objects are found. -/
def envOkEmpty : CleansingEnv :=
  { listContractorFiles := fun _ => Except.ok []
  , listProjectFiles := fun _ => Except.ok []
  , listSiteFiles := fun _ => Except.ok []
  , deleteObjects := fun objs => (objs.length, none)
  , getSiteByID := fun i => Except.ok { id := i, code := "S", projectId := 9 }
  , getProjectsByContractor := fun _ => Except.ok []
  , getSitesByProject := fun _ => Except.ok []
  , fileHardDeleteBySite := fun _ => none
  , documentHardDeleteBySite := fun _ => none
  , documentGroupHardDeleteBySite := fun _ => none
  , siteHardDelete := fun _ => none
  , siteHardDeleteByProject := fun _ => none
  , projectHardDelete := fun _ => none
  , projectHardDeleteByContractor := fun _ => none
  , contractorDelete := fun _ => none
  , updateProjectUsage := fun _ _ => none }

/-- Witness: the spec's `ScopeRequest{type:"bogus", id:1}`. -/
theorem processCleansingMessage_invalid_no_side_effects_witness :
    ProcessCleansingMessage envOkEmpty [] { type := "bogus", id := 1 }
      = ([], { type := "bogus", id := 1, success := false, message := "",
               filesDeleted := 0, error := "invalid cleansing type: " ++ "bogus" },
         some ("invalid cleansing type: " ++ "bogus")) :=
  processCleansingMessage_invalid_no_side_effects envOkEmpty []
    { type := "bogus", id := 1 } rfl

/-- The constructor of a call event, forgetting its arguments. -/
def kindOf : CEv → Nat
  | CEv.listContractorFiles _ => 0
  | CEv.listProjectFiles _ => 1
  | CEv.listSiteFiles _ => 2
  | CEv.deleteObjects _ => 3
  | CEv.getSiteByID _ => 4
  | CEv.getProjectsByContractor _ => 5
  | CEv.getSitesByProject _ => 6
  | CEv.fileHardDeleteBySite _ => 7
  | CEv.documentHardDeleteBySite _ => 8
  | CEv.documentGroupHardDeleteBySite _ => 9
  | CEv.siteHardDelete _ => 10
  | CEv.siteHardDeleteByProject _ => 11
  | CEv.projectHardDelete _ => 12
  | CEv.projectHardDeleteByContractor _ => 13
  | CEv.contractorDelete _ => 14
  | CEv.updateProjectUsage _ _ => 15

/-- The call sequence of a complete `DeleteSiteFiles` run: site read,
object-key resolution, object deletion, usage update, then the cascade —
file hard-delete, document hard-delete, document-group hard-delete, site
row delete. -/
def siteDeletionKinds : List Nat :=
  [kindOf (CEv.getSiteByID 0), kindOf (CEv.listSiteFiles 0), kindOf (CEv.deleteObjects 0),
   kindOf (CEv.updateProjectUsage 0 0), kindOf (CEv.fileHardDeleteBySite 0),
   kindOf (CEv.documentHardDeleteBySite 0), kindOf (CEv.documentGroupHardDeleteBySite 0),
   kindOf (CEv.siteHardDelete 0)]

/-- C6: every `DeleteSiteFiles` run appends a prefix of the fixed call
sequence `siteDeletionKinds` to the trace — so the cascade steps, when
they occur, run strictly after key resolution and object deletion and in
the order file → document → document group → site row — and every
successful run appends exactly the full sequence. -/
theorem deleteSiteFiles_cascade_order (env : CleansingEnv) (tr : List CEv) (siteID : Int) :
    (∃ t u, (DeleteSiteFiles env tr siteID).1 = tr ++ t
        ∧ t.map kindOf ++ u = siteDeletionKinds)
    ∧ ((DeleteSiteFiles env tr siteID).2.2 = none →
        ((DeleteSiteFiles env tr siteID).1).map kindOf
          = tr.map kindOf ++ siteDeletionKinds) := by
  rcases h1 : env.getSiteByID siteID with e | site
  · have hstep : DeleteSiteFiles env tr siteID
        = (tr ++ [CEv.getSiteByID siteID],
           { emptyResult CleansingTypeSite siteID with
               error := "failed to get site information: " ++ e }, some e) := by
      simp [DeleteSiteFiles, h1]
    rw [hstep]
    exact ⟨⟨_, siteDeletionKinds.drop 1, rfl, rfl⟩, fun h => by simp at h⟩
  · rcases h2 : env.listSiteFiles siteID with e | s3Objects
    · have hstep : DeleteSiteFiles env tr siteID
          = (tr ++ [CEv.getSiteByID siteID, CEv.listSiteFiles siteID],
             { emptyResult CleansingTypeSite siteID with
                 error := "failed to list site files: " ++ e }, some e) := by
        simp [DeleteSiteFiles, h1, h2]
      rw [hstep]
      exact ⟨⟨_, siteDeletionKinds.drop 2, rfl, rfl⟩, fun h => by simp at h⟩
    · rcases h3 : (env.deleteObjects s3Objects).2 with _ | e
      · rcases h4 : env.fileHardDeleteBySite siteID with _ | e
        · rcases h5 : env.documentHardDeleteBySite siteID with _ | e
          · rcases h6 : env.documentGroupHardDeleteBySite siteID with _ | e
            · rcases h7 : env.siteHardDelete siteID with _ | e
              · have hstep : DeleteSiteFiles env tr siteID
                    = (tr ++ [CEv.getSiteByID siteID, CEv.listSiteFiles siteID,
                        CEv.deleteObjects s3Objects.length,
                        CEv.updateProjectUsage site.projectId
                          (-((s3Objects.map S3Object.size).sum)),
                        CEv.fileHardDeleteBySite siteID,
                        CEv.documentHardDeleteBySite siteID,
                        CEv.documentGroupHardDeleteBySite siteID,
                        CEv.siteHardDelete siteID],
                       { emptyResult CleansingTypeSite siteID with
                           success := true,
                           filesDeleted := (env.deleteObjects s3Objects).1 }, none) := by
                  simp [DeleteSiteFiles, h1, h2, h3, h4, h5, h6, h7]
                rw [hstep]
                refine ⟨⟨_, [], rfl, rfl⟩, fun _ => ?_⟩
                simp [siteDeletionKinds, kindOf]
              · have hstep : DeleteSiteFiles env tr siteID
                    = (tr ++ [CEv.getSiteByID siteID, CEv.listSiteFiles siteID,
                        CEv.deleteObjects s3Objects.length,
                        CEv.updateProjectUsage site.projectId
                          (-((s3Objects.map S3Object.size).sum)),
                        CEv.fileHardDeleteBySite siteID,
                        CEv.documentHardDeleteBySite siteID,
                        CEv.documentGroupHardDeleteBySite siteID,
                        CEv.siteHardDelete siteID],
                       { emptyResult CleansingTypeSite siteID with
                           error := "failed to delete site record: " ++ e,
                           filesDeleted := (env.deleteObjects s3Objects).1 }, some e) := by
                  simp [DeleteSiteFiles, h1, h2, h3, h4, h5, h6, h7]
                rw [hstep]
                exact ⟨⟨_, [], rfl, rfl⟩, fun h => by simp at h⟩
            · have hstep : DeleteSiteFiles env tr siteID
                  = (tr ++ [CEv.getSiteByID siteID, CEv.listSiteFiles siteID,
                      CEv.deleteObjects s3Objects.length,
                      CEv.updateProjectUsage site.projectId
                        (-((s3Objects.map S3Object.size).sum)),
                      CEv.fileHardDeleteBySite siteID,
                      CEv.documentHardDeleteBySite siteID,
                      CEv.documentGroupHardDeleteBySite siteID],
                     { emptyResult CleansingTypeSite siteID with
                         error := "failed to delete document group records: " ++ e,
                         filesDeleted := (env.deleteObjects s3Objects).1 }, some e) := by
                simp [DeleteSiteFiles, h1, h2, h3, h4, h5, h6]
              rw [hstep]
              exact ⟨⟨_, siteDeletionKinds.drop 7, rfl, rfl⟩, fun h => by simp at h⟩
          · have hstep : DeleteSiteFiles env tr siteID
                = (tr ++ [CEv.getSiteByID siteID, CEv.listSiteFiles siteID,
                    CEv.deleteObjects s3Objects.length,
                    CEv.updateProjectUsage site.projectId
                      (-((s3Objects.map S3Object.size).sum)),
                    CEv.fileHardDeleteBySite siteID,
                    CEv.documentHardDeleteBySite siteID],
                   { emptyResult CleansingTypeSite siteID with
                       error := "failed to delete document records: " ++ e,
                       filesDeleted := (env.deleteObjects s3Objects).1 }, some e) := by
              simp [DeleteSiteFiles, h1, h2, h3, h4, h5]
            rw [hstep]
            exact ⟨⟨_, siteDeletionKinds.drop 6, rfl, rfl⟩, fun h => by simp at h⟩
        · have hstep : DeleteSiteFiles env tr siteID
              = (tr ++ [CEv.getSiteByID siteID, CEv.listSiteFiles siteID,
                  CEv.deleteObjects s3Objects.length,
                  CEv.updateProjectUsage site.projectId
                    (-((s3Objects.map S3Object.size).sum)),
                  CEv.fileHardDeleteBySite siteID],
                 { emptyResult CleansingTypeSite siteID with
                     error := "failed to delete file records: " ++ e,
                     filesDeleted := (env.deleteObjects s3Objects).1 }, some e) := by
            simp [DeleteSiteFiles, h1, h2, h3, h4]
          rw [hstep]
          exact ⟨⟨_, siteDeletionKinds.drop 5, rfl, rfl⟩, fun h => by simp at h⟩
      · have hstep : DeleteSiteFiles env tr siteID
            = (tr ++ [CEv.getSiteByID siteID, CEv.listSiteFiles siteID,
                CEv.deleteObjects s3Objects.length],
               { emptyResult CleansingTypeSite siteID with
                   error := "failed to delete site files: " ++ e,
                   filesDeleted := (env.deleteObjects s3Objects).1 }, some e) := by
          simp [DeleteSiteFiles, h1, h2, h3]
        rw [hstep]
        exact ⟨⟨_, siteDeletionKinds.drop 3, rfl, rfl⟩, fun h => by simp at h⟩

/-- Witness: at a concrete all-success environment the full call sequence
is performed, in order. -/
theorem deleteSiteFiles_cascade_order_witness :
    ((DeleteSiteFiles envOkEmpty [] 5).1).map kindOf
      = ([] : List CEv).map kindOf ++ siteDeletionKinds :=
  (deleteSiteFiles_cascade_order envOkEmpty [] 5).2 rfl

theorem deleteContractorFiles_type_id (env : CleansingEnv) (tr : List CEv) (cid : Int) :
    ((DeleteContractorFiles env tr cid).2.1).type = CleansingTypeContractor
    ∧ ((DeleteContractorFiles env tr cid).2.1).id = cid := by
  simp only [DeleteContractorFiles]
  repeat' split
  all_goals simp [emptyResult]

theorem deleteProjectFiles_type_id (env : CleansingEnv) (tr : List CEv) (pid : Int) :
    ((DeleteProjectFiles env tr pid).2.1).type = CleansingTypeProject
    ∧ ((DeleteProjectFiles env tr pid).2.1).id = pid := by
  simp only [DeleteProjectFiles]
  repeat' split
  all_goals simp [emptyResult]

theorem deleteSiteFiles_type_id (env : CleansingEnv) (tr : List CEv) (sid : Int) :
    ((DeleteSiteFiles env tr sid).2.1).type = CleansingTypeSite
    ∧ ((DeleteSiteFiles env tr sid).2.1).id = sid := by
  simp only [DeleteSiteFiles]
  repeat' split
  all_goals simp [emptyResult]

theorem processCleansingMessage_type_id (env : CleansingEnv) (tr : List CEv)
    (m : CleansingMessage) :
    ((ProcessCleansingMessage env tr m).2.1).type = m.type
    ∧ ((ProcessCleansingMessage env tr m).2.1).id = m.id := by
  rw [ProcessCleansingMessage]
  by_cases hv : m.IsValidType
  · rw [if_neg (by simp [hv])]
    by_cases hc : m.type == CleansingTypeContractor
    · rw [if_pos hc]
      have h := deleteContractorFiles_type_id env tr m.id
      have ht : m.type = CleansingTypeContractor := by simpa using hc
      exact ⟨by rw [h.1, ht], h.2⟩
    · rw [if_neg hc]
      by_cases hp : m.type == CleansingTypeProject
      · rw [if_pos hp]
        have h := deleteProjectFiles_type_id env tr m.id
        have ht : m.type = CleansingTypeProject := by simpa using hp
        exact ⟨by rw [h.1, ht], h.2⟩
      · rw [if_neg hp]
        by_cases hs : m.type == CleansingTypeSite
        · rw [if_pos hs]
          have h := deleteSiteFiles_type_id env tr m.id
          have ht : m.type = CleansingTypeSite := by simpa using hs
          exact ⟨by rw [h.1, ht], h.2⟩
        · rw [if_neg hs]
          exact ⟨rfl, rfl⟩
  · have hvf : m.IsValidType = false := by
      revert hv; cases m.IsValidType <;> simp
    rw [if_pos (by simp [hvf])]
    exact ⟨rfl, rfl⟩

/-- C10: on every path — routing, success, and each failure exit — the
cleansing service's result carries the scope type and scope id of the
request that produced it. -/
theorem cleansingResult_carries_scope :
    (∀ (env : CleansingEnv) (tr : List CEv) (m : CleansingMessage),
      ((ProcessCleansingMessage env tr m).2.1).type = m.type
      ∧ ((ProcessCleansingMessage env tr m).2.1).id = m.id)
    ∧ (∀ (env : CleansingEnv) (tr : List CEv) (cid : Int),
      ((DeleteContractorFiles env tr cid).2.1).type = CleansingTypeContractor
      ∧ ((DeleteContractorFiles env tr cid).2.1).id = cid)
    ∧ (∀ (env : CleansingEnv) (tr : List CEv) (pid : Int),
      ((DeleteProjectFiles env tr pid).2.1).type = CleansingTypeProject
      ∧ ((DeleteProjectFiles env tr pid).2.1).id = pid)
    ∧ (∀ (env : CleansingEnv) (tr : List CEv) (sid : Int),
      ((DeleteSiteFiles env tr sid).2.1).type = CleansingTypeSite
      ∧ ((DeleteSiteFiles env tr sid).2.1).id = sid) :=
  ⟨processCleansingMessage_type_id, deleteContractorFiles_type_id,
   deleteProjectFiles_type_id, deleteSiteFiles_type_id⟩

end Cleansing

end WadugsCleansing
